import Mathlib

/-!
# Rubix monitoring: usage aggregation and quota projection

A shallow embedding of `src/api/data.js` and the properties of its billing
window, feed aggregation, projection loop, secondary-provider summary and
credential check.

Modelling conventions.

* JavaScript numbers are exact rationals (`ℚ`).  `NaN` is `none` of `Option ℚ`
  where the code can produce it; the infinities have no counterpart.
* `Math.round` rounds to the nearest integer with ties toward `+∞`.
* A feed line carries its raw text together with the outcome of `JSON.parse`
  on that text (`none` when `JSON.parse` throws).
* `Date` values are the local calendar fields the code reads and builds; the
  host time zone has a constant UTC offset over a billing window.
* The `perApp` object is a plain object literal, so reads of a key fall back
  to `Object.prototype` when the key is not an own property.
* A loop that can throw midway returns what it had accumulated together with
  the exception, so that the state left behind by a caught exception is visible.
* The handler returns its response together with the list of the upstream
  operations it invoked.
-/

namespace Rubix

/-! ## Utils -/

/-- Math.round of JavaScript: the nearest integer, a tie going toward `+∞`. -/
def mathRound (x : ℚ) : ℤ := ⌊x + 1 / 2⌋

/-- The helper `r` of the source: `Math.round(n * 10^dec) / 10^dec`. -/
def r (n : ℚ) (dec : ℕ) : ℚ := (mathRound (n * 10 ^ dec) : ℚ) / 10 ^ dec

/-! ## Static configuration -/

/-- The four recognized services, the entries of `SVCS`. -/
inductive Svc where
  | buildMinutes
  | functionInvocations
  | functionDuration
  | fastDataTransfer
  deriving DecidableEq, Repr

/-- The service name as it appears in the feed. -/
def Svc.name : Svc → String
  | .buildMinutes => "Build Minutes"
  | .functionInvocations => "Function Invocations"
  | .functionDuration => "Function Duration"
  | .fastDataTransfer => "Fast Data Transfer"

/-- The constant `SVCS`, in source order. -/
def SVCS : List Svc :=
  [.buildMinutes, .functionInvocations, .functionDuration, .fastDataTransfer]

/-- The constant `LIMITS`. -/
def LIMITS : Svc → ℚ
  | .buildMinutes => 6000
  | .functionInvocations => 1000000
  | .functionDuration => 1000
  | .fastDataTransfer => 1000

/-- The constant `UNITS`. -/
def UNITS : Svc → String
  | .buildMinutes => "min"
  | .functionInvocations => "invoc."
  | .functionDuration => "GB-h"
  | .fastDataTransfer => "GB"

/-! ## Billing window -/

/-- The local calendar fields of a `Date`: `getFullYear()`, `getMonth()` (0 to 11),
`getDate()`, and the milliseconds elapsed since local midnight. -/
structure JsDate where
  year : ℤ
  month : ℕ
  date : ℕ
  ms : ℕ
  deriving DecidableEq, Repr

/-- The constructor `new Date(year, month, date)` with the time of day at zero, as both
call sites use it.  A year argument from 0 to 99 stands for 1900 + year; a month outside
0..11 carries into the year.  The day of the month is kept as given, which is exact
whenever that day exists in the month (the code only ever passes 20). -/
def newDate (year month : ℤ) (date : ℕ) : JsDate :=
  let yr := if 0 ≤ year ∧ year ≤ 99 then 1900 + year else year
  ⟨yr + month / 12, (month % 12).toNat, date, 0⟩

/-- The value `billingFrom` of the handler. -/
def billingFrom (now : JsDate) : JsDate :=
  if now.date ≥ 20 then newDate now.year now.month 20
  else newDate now.year ((now.month : ℤ) - 1) 20

/-- The value `billingEnd` of the handler. -/
def billingEnd (now : JsDate) : JsDate :=
  newDate (billingFrom now).year ((billingFrom now).month + 1) (billingFrom now).date

/-- Leap years of the Gregorian calendar. -/
def isLeapYear (y : ℤ) : Bool := (y % 4 == 0 && y % 100 != 0) || y % 400 == 0

/-- Number of days of month `m` (0 to 11) of year `y`. -/
def daysInMonth (y : ℤ) (m : ℕ) : ℕ :=
  match m with
  | 1 => if isLeapYear y then 29 else 28
  | 3 | 5 | 8 | 10 => 30
  | _ => 31

/-- Number of days of year `y` before the first of month `m` (0 to 11). -/
def daysBeforeMonth (y : ℤ) (m : ℕ) : ℕ :=
  ((List.range m).map (daysInMonth y)).sum

/-- The day number of the first of January of year `y`, counted from 1970 (`DayFromYear`
of ECMAScript). -/
def dayFromYear (y : ℤ) : ℤ :=
  365 * (y - 1970) + (y - 1969) / 4 - (y - 1901) / 100 + (y - 1601) / 400

/-- Milliseconds per day, the constant 86400000 of the source. -/
def msPerDay : ℤ := 86400000

/-- The time value of a date: milliseconds since the epoch, in local time. -/
def timeValue (d : JsDate) : ℤ :=
  (dayFromYear d.year + daysBeforeMonth d.year d.month + ((d.date : ℤ) - 1)) * msPerDay + d.ms

/-- A reading of the host clock: a calendar date that exists, a time within the day, at or
after the epoch year of the host clock. -/
def JsDate.IsClockReading (d : JsDate) : Prop :=
  1970 ≤ d.year ∧ d.month < 12 ∧ 1 ≤ d.date ∧ d.date ≤ daysInMonth d.year d.month ∧
    (d.ms : ℤ) < msPerDay

instance (d : JsDate) : Decidable d.IsClockReading := by
  unfold JsDate.IsClockReading; infer_instance

/-- The value `daysElapsed` of the handler. -/
def daysElapsed (now : JsDate) : ℚ :=
  max (((timeValue now - timeValue (billingFrom now) : ℤ) : ℚ) / 86400000) 1

/-- The value `totalDays` of the handler. -/
def totalDays (now : JsDate) : ℚ :=
  ((timeValue (billingEnd now) - timeValue (billingFrom now) : ℤ) : ℚ) / 86400000

/-- The value `daysRemaining` of the handler. -/
def daysRemaining (now : JsDate) : ℚ :=
  max (((timeValue (billingEnd now) - timeValue now : ℤ) : ℚ) / 86400000) 0

/-! ## Decoded JSON values -/

/-- A value produced by `JSON.parse`.  A number carries its exact value together with the
text `String(value)` gives for it. -/
inductive Json where
  | null : Json
  | bool (b : Bool) : Json
  | num (value : ℚ) (text : String) : Json
  | str (s : String) : Json
  | arr (items : List Json) : Json
  | obj (fields : List (String × Json)) : Json

/-- The first field named `name` of a decoded object. -/
def lookupField : List (String × Json) → String → Option Json
  | [], _ => none
  | (k, v) :: rest, name => if k = name then some v else lookupField rest name

/-- Property read `v.name` on a non-null decoded value, for a name that no prototype
defines: the own field of an object, `undefined` (`none`) otherwise. -/
def getProp (v : Json) (name : String) : Option Json :=
  match v with
  | .obj fields => lookupField fields name
  | _ => none

/-- Optional chaining `v?.name`: `undefined` when `v` is `undefined` or `null`. -/
def optChain (v : Option Json) (name : String) : Option Json :=
  match v with
  | none => none
  | some .null => none
  | some j => getProp j name

/-- Truthiness of a value (`none` is `undefined`). -/
def truthy : Option Json → Bool
  | none => false
  | some .null => false
  | some (.bool b) => b
  | some (.num q _) => q != 0
  | some (.str s) => s != ""
  | some (.arr _) => true
  | some (.obj _) => true

mutual
/-- The abstract operation `ToString` on a decoded value. -/
def jsToString : Json → String
  | .null => "null"
  | .bool b => if b then "true" else "false"
  | .num _ t => t
  | .str s => s
  | .arr items => joinItems items
  | .obj _ => "[object Object]"
termination_by structural j => j
/-- The text of an array: its elements joined by commas, `null` giving the empty text. -/
def joinItems : List Json → String
  | [] => ""
  | x :: xs =>
    (match x with
      | .null => ""
      | j => jsToString j) ++
    (match xs with
      | [] => ""
      | _ => "," ++ joinItems xs)
termination_by structural l => l
end

/-- White space skipped by `parseFloat` at the start of a text. -/
def isStrWhiteSpace (c : Char) : Bool :=
  [9, 10, 11, 12, 13, 32, 160, 5760, 8232, 8233, 8239, 8287, 12288, 65279].contains c.toNat ||
    (8192 ≤ c.toNat && c.toNat ≤ 8202)

/-- The decimal digits at the start of a text, and the rest of the text. -/
def takeDigits : List Char → List ℕ × List Char
  | [] => ([], [])
  | c :: cs =>
    if c.isDigit then ((c.toNat - 48) :: (takeDigits cs).1, (takeDigits cs).2)
    else ([], c :: cs)

/-- The number written by a list of decimal digits. -/
def digitsValue (ds : List ℕ) : ℕ := ds.foldl (fun acc d => acc * 10 + d) 0

/-- The exponent part at the start of a text (`e` or `E`, an optional sign, at least one
digit); 0 when the text does not start with one. -/
def exponentPart : List Char → ℤ
  | c :: rest =>
    if c = 'e' ∨ c = 'E' then
      match rest with
      | '+' :: ds => if (takeDigits ds).1.isEmpty then 0 else (digitsValue (takeDigits ds).1 : ℤ)
      | '-' :: ds => if (takeDigits ds).1.isEmpty then 0 else -(digitsValue (takeDigits ds).1 : ℤ)
      | ds => if (takeDigits ds).1.isEmpty then 0 else (digitsValue (takeDigits ds).1 : ℤ)
    else 0
  | [] => 0

/-- The unsigned decimal literal at the start of a text, `none` when there is none. -/
def unsignedDecimal (cs : List Char) : Option ℚ :=
  let ip := takeDigits cs
  let fp : List ℕ × List Char :=
    match ip.2 with
    | '.' :: rest => takeDigits rest
    | rest => ([], rest)
  if ip.1.isEmpty ∧ fp.1.isEmpty then none
  else
    some (((digitsValue ip.1 : ℚ) + (digitsValue fp.1 : ℚ) / 10 ^ fp.1.length) *
      10 ^ exponentPart fp.2)

/-- The function `parseFloat` on a text: the longest decimal literal at its start after
white space, `none` (NaN) when there is none.  The literal `Infinity` has no exact value
and reads as `none`. -/
def parseFloatText (s : String) : Option ℚ :=
  match s.data.dropWhile isStrWhiteSpace with
  | '-' :: rest => (unsignedDecimal rest).map fun q => -q
  | '+' :: rest => unsignedDecimal rest
  | rest => unsignedDecimal rest

/-- The function `parseFloat` on a property value (`none` is `undefined`): a number reads
as itself, any other value through its text. -/
def parseFloat : Option Json → Option ℚ
  | none => none
  | some (.num q _) => some q
  | some j => parseFloatText (jsToString j)

/-! ## Feed lines -/

/-- One line of the feed: its text, and what `JSON.parse` returns on it (`none` when it
throws). -/
structure Line where
  text : String
  parsed : Option Json

/-- The property `length` of a text: its number of UTF-16 code units. -/
def jsLength (s : String) : ℕ :=
  (s.data.map fun c => if c.toNat < 65536 then 1 else 2).sum

/-- Whether the characters `needle` occur, contiguous, in `hay`. -/
def includesChars (hay needle : List Char) : Bool :=
  match hay with
  | [] => needle.isEmpty
  | c :: cs => needle.isPrefixOf (c :: cs) || includesChars cs needle

/-- The method `line.includes(s)`. -/
def includes (line s : String) : Bool := includesChars line.data s.data

/-- The pre-filter `SVCS.find(s => line.includes(s))`. -/
def preFilter (line : Line) : Option Svc :=
  SVCS.find? fun s => includes line.text s.name

/-! ## Aggregation -/

/-- The object `perApp`: own properties in insertion order.  A value is a number, or
`none` for a content that is not a number (a text before the final rounding, NaN after). -/
abbrev PerApp := List (String × Option ℚ)

/-- The entry `{ total, perApp }` kept for a service. -/
structure ServiceUsage where
  total : ℚ
  perApp : PerApp

/-- The object `result` of `fetchBilling`: at most one entry per recognized service. -/
abbrev BillingResult := Svc → Option ServiceUsage

/-- The data properties that every plain object inherits from `Object.prototype`; each
holds a function. -/
def objectPrototypeMethods : List String :=
  ["constructor", "hasOwnProperty", "isPrototypeOf", "propertyIsEnumerable",
   "toLocaleString", "toString", "valueOf", "__defineGetter__", "__defineSetter__",
   "__lookupGetter__", "__lookupSetter__"]

/-- Whether a key names a property inherited from `Object.prototype`: one of its methods,
or the accessor `__proto__`. -/
def isInheritedKey (key : String) : Bool :=
  key == "__proto__" || objectPrototypeMethods.contains key

/-- What a read `perApp[key]` yields. -/
inductive Slot where
  | undefined
  | number (q : ℚ)
  | other

/-- The own property `key` of `perApp`, if any. -/
def ownProp : PerApp → String → Option (Option ℚ)
  | [], _ => none
  | (k, v) :: rest, key => if k = key then some v else ownProp rest key

/-- What a read of `key` yields on a plain object whose own property `key` is `own`
(`none` when there is no such own property): the own property when there is one, else the
property inherited from `Object.prototype` (an object or a function), else `undefined`. -/
def slotOf (own : Option (Option ℚ)) (key : String) : Slot :=
  match own with
  | some (some q) => .number q
  | some none => .other
  | none => if isInheritedKey key then .other else .undefined

/-- The read `perApp[key]`. -/
def readSlot (p : PerApp) (key : String) : Slot := slotOf (ownProp p key) key

/-- The value `(slot || 0) + qty`: a sum of numbers, or a text (`none`) when the slot
holds an object, a function or a text. -/
def slotPlus (s : Slot) (qty : ℚ) : Option ℚ :=
  match s with
  | .undefined => some (0 + qty)
  | .number q => some (q + qty)
  | .other => none

/-- Definition of an own property: the value is replaced in place when the key is
already an own property, appended otherwise. -/
def putOwn : PerApp → String → Option ℚ → PerApp
  | [], key, v => [(key, v)]
  | (k, w) :: rest, key, v =>
    if k = key then (k, v) :: rest else (k, w) :: putOwn rest key v

/-- The assignment `perApp[key] = v`.  For the key `__proto__` the assignment reaches the
setter of `Object.prototype`, which ignores a value that is not an object. -/
def assignSlot (p : PerApp) (key : String) (v : Option ℚ) : PerApp :=
  if key = "__proto__" then p else putOwn p key v

/-- The statement `perApp[appName] = (perApp[appName] || 0) + qty`. -/
def addToApp (p : PerApp) (appName : String) (qty : ℚ) : PerApp :=
  assignSlot p appName (slotPlus (readSlot p appName) qty)

/-- The value `parseFloat(obj.ConsumedQuantity) || 0`. -/
def quantityOf (obj : Json) : ℚ :=
  (parseFloat (getProp obj "ConsumedQuantity")).getD 0

/-- The property key of `obj.Tags?.ProjectName || '_other'`. -/
def appNameOf (obj : Json) : String :=
  match optChain (getProp obj "Tags") "ProjectName" with
  | some j => if truthy (some j) then jsToString j else "_other"
  | none => "_other"

/-- The test `obj.ServiceName !== svc`, negated: the property is a text equal to the
service name. -/
def serviceNameIs (obj : Json) (svc : Svc) : Bool :=
  match getProp obj "ServiceName" with
  | some (.str s) => s == svc.name
  | _ => false

/-- The two additions of the loop body on the entry of the service: `total += qty` and
`perApp[appName] = (perApp[appName] || 0) + qty`. -/
def creditEntry (entry : ServiceUsage) (obj : Json) : ServiceUsage :=
  ⟨entry.total + quantityOf obj, addToApp entry.perApp (appNameOf obj) (quantityOf obj)⟩

/-- The statement sequence that credits a record to `svc`: the entry is created when
absent (`{ total: 0, perApp: {} }`), then `total` and one `perApp` slot are increased by the
quantity. -/
def credit (result : BillingResult) (svc : Svc) (obj : Json) : BillingResult :=
  Function.update result svc (some (creditEntry ((result svc).getD ⟨0, []⟩) obj))

/-- An exception raised inside the `try` block. -/
inductive JsError where
  | parseFailure
  | typeError
  deriving DecidableEq, Repr

/-- The body of the `try` block for a line that passed the pre-filter with `svc`.
`JSON.parse` throws on a malformed line, and reading a property of `null` throws; a record
of another service leaves `result` unchanged (`continue`). -/
def tryBody (result : BillingResult) (svc : Svc) (line : Line) :
    Except JsError BillingResult :=
  match line.parsed with
  | none => .error .parseFailure
  | some .null => .error .typeError
  | some obj => if serviceNameIs obj svc then .ok (credit result svc obj) else .ok result

/-- One iteration of the loop over the lines, exceptions of the `try` block caught. -/
def lineStep (result : BillingResult) (line : Line) : BillingResult :=
  if jsLength line.text < 10 then result
  else
    match preFilter line with
    | none => result
    | some svc =>
      match tryBody result svc line with
      | .ok res => res
      | .error _ => result

/-- The loop of `fetchBilling` over the lines of the feed, from the empty `result`. -/
def foldLines (lines : List Line) : BillingResult :=
  lines.foldl lineStep fun _ => none

/-- The inner loop of the final rounding pass: every `perApp` value goes through `r(_, 3)`;
a content that is not a number becomes NaN. -/
def roundValues (p : PerApp) : PerApp := p.map fun kv => (kv.1, kv.2.map fun q => r q 3)

/-- The final rounding pass (`Arrondi final`): `total` and every `perApp` value of every
entry go through `r(_, 3)`. -/
def finalRound (result : BillingResult) : BillingResult := fun svc =>
  (result svc).map fun e => ⟨r e.total 3, roundValues e.perApp⟩

/-- The function `fetchBilling` on a received response: `ok` is `resp.ok`, `lines` is
`text.split` on line feeds. -/
def fetchBilling (ok : Bool) (lines : List Line) : BillingResult :=
  if !ok then fun _ => none else finalRound (foldLines lines)

/-! ## Projections -/

/-- The risk tier. -/
inductive Risk where
  | ok
  | warn
  | danger
  deriving DecidableEq, Repr

/-- The object `proj[svc]` of the report. -/
structure Projection where
  used : ℚ
  limit : ℚ
  unit : String
  dailyRate : ℚ
  projected : ℚ
  remaining : ℚ
  daysUntil : ℤ
  projPct : ℚ
  risk : Risk
  perApp : PerApp

/-- The value `billing[svc]?.total ?? 0`. -/
def usedOf (billing : BillingResult) (svc : Svc) : ℚ :=
  match billing svc with
  | some e => e.total
  | none => 0

/-- The expression `projPct > 80 ? 'danger' : projPct > 50 ? 'warn' : 'ok'`. -/
def riskOf (projPct : ℚ) : Risk :=
  if projPct > 80 then .danger else if projPct > 50 then .warn else .ok

/-- The expression `rate > 0 ? Math.round(remaining / rate) : 999`. -/
def daysUntilOf (remaining rate : ℚ) : ℤ :=
  if rate > 0 then mathRound (remaining / rate) else 999

/-- The body of the projection loop for one service. -/
def project (billing : BillingResult) (daysElapsed totalDays : ℚ) (svc : Svc) : Projection :=
  let used := usedOf billing svc
  let limit := LIMITS svc
  let rate := used / daysElapsed
  let projected := r (rate * totalDays) 1
  let remaining := r (limit - used) 1
  let daysUntil := daysUntilOf remaining rate
  let projPct := r (projected / limit * 100) 1
  { used := r used 3
    limit := limit
    unit := UNITS svc
    dailyRate := r rate 2
    projected := projected
    remaining := remaining
    daysUntil := daysUntil
    projPct := projPct
    risk := riskOf projPct
    perApp := match billing svc with
      | some e => e.perApp
      | none => [] }

/-- The object `proj` built by the handler at clock reading `now`. -/
def proj (now : JsDate) (billing : BillingResult) (svc : Svc) : Projection :=
  project billing (daysElapsed now) (totalDays now) svc

/-! ## Accepted records -/

/-- The record a line contributes, if any: the line passes the length test and the
pre-filter with `svc`, `JSON.parse` returns `obj`, and `obj.ServiceName` is the name of
`svc`.  These are the conditions under which the loop body reaches its crediting
statements. -/
def acceptedRecord (line : Line) : Option (Svc × Json) :=
  if jsLength line.text < 10 then none
  else
    match preFilter line with
    | none => none
    | some svc =>
      match line.parsed with
      | some obj => if serviceNameIs obj svc then some (svc, obj) else none
      | none => none

/-- The loop accepts `line` and credits it to `svc`. -/
def Accepts (line : Line) (svc : Svc) : Prop :=
  ∃ obj, acceptedRecord line = some (svc, obj)

/-- The records the feed contributes to `svc`, in feed order. -/
def recordsOf (lines : List Line) (svc : Svc) : List Json :=
  lines.filterMap fun line =>
    match acceptedRecord line with
    | some (s, obj) => if s = svc then some obj else none
    | none => none

/-- The entry of a service after one more of its records: the entry is created when
absent, then credited. -/
def creditOpt (e : Option ServiceUsage) (obj : Json) : Option ServiceUsage :=
  some (creditEntry (e.getD ⟨0, []⟩) obj)

/-- The decoded service name of a line: the property `ServiceName` of the decoded value
when it is a text. -/
def decodedServiceName (line : Line) : Option String :=
  match line.parsed with
  | some obj =>
    match getProp obj "ServiceName" with
    | some (.str s) => some s
    | _ => none
  | none => none

/-- Acceptance by full decode alone, in the words of the specification: the line is at
least 10 characters long, decodes as structured JSON, and its decoded ServiceName is the
recognized service `svc`. -/
def FullDecodeAccepts (line : Line) (svc : Svc) : Prop :=
  10 ≤ jsLength line.text ∧ ∃ obj, line.parsed = some obj ∧ serviceNameIs obj svc = true

/-- A `perApp` object seen as a mapping: the own property of each key. -/
abbrev Mapping := String → Option (Option ℚ)

/-- An entry seen as a mapping: its total and the own properties of its `perApp`. -/
def ServiceUsage.asMapping (e : ServiceUsage) : ℚ × Mapping := (e.total, ownProp e.perApp)

/-- Two aggregation results are the same mapping: the same services, with the same totals
and the same `perApp` keys and values. -/
def SameMapping (a b : BillingResult) : Prop :=
  ∀ svc, (a svc).map ServiceUsage.asMapping = (b svc).map ServiceUsage.asMapping

/-- The effect of `addToApp` on the mapping. -/
def addToMapping (m : Mapping) (key : String) (qty : ℚ) : Mapping := fun k =>
  if key = k ∧ key ≠ "__proto__" then some (slotPlus (slotOf (m key) key) qty) else m k

/-- The effect of `creditEntry` on the mapping. -/
def creditMapping (v : ℚ × Mapping) (obj : Json) : ℚ × Mapping :=
  (v.1 + quantityOf obj, addToMapping v.2 (appNameOf obj) (quantityOf obj))

/-- The effect of `creditOpt` on the mapping. -/
def creditMappingOpt (v : Option (ℚ × Mapping)) (obj : Json) : Option (ℚ × Mapping) :=
  some (creditMapping (v.getD (0, fun _ => none)) obj)

/-- The sum of the values of `perApp`, as `+` computes it: NaN (`none`) as soon as one
value is not a number. -/
def sumValues : PerApp → Option ℚ
  | [] => some 0
  | kv :: rest => kv.2.bind fun q => (sumValues rest).map fun t => q + t

/-! ## Sample inputs -/

/-- The feed line of a usage record: service `svc`, quantity `quantity` written
`quantityText`, consumer `tag`. -/
def usageLine (svc : Svc) (quantityText : String) (quantity : ℚ) (tag : String) : Line :=
  ⟨"\x7b\"ServiceName\":\"" ++ svc.name ++ "\",\"ConsumedQuantity\":" ++ quantityText ++
      ",\"Tags\":\x7b\"ProjectName\":\"" ++ tag ++ "\"\x7d\x7d",
   some (.obj [("ServiceName", .str svc.name),
     ("ConsumedQuantity", .num quantity quantityText),
     ("Tags", .obj [("ProjectName", .str tag)])])⟩

/-- The feed of the end-to-end example: 10 build minutes for `pole`, 5 for `pitch`. -/
def sampleFeed : List Line :=
  [usageLine .buildMinutes "10" 10 "pole", usageLine .buildMinutes "5" 5 "pitch"]

/-- A feed line of the service Fast Data Transfer whose description mentions another
recognized service. -/
def mentionLine : Line :=
  ⟨"\x7b\"ServiceName\":\"Fast Data Transfer\",\"ConsumedQuantity\":2," ++
      "\"ChargeDescription\":\"Fast Data Transfer during Build Minutes\"\x7d",
   some (.obj [("ServiceName", .str "Fast Data Transfer"),
     ("ConsumedQuantity", .num 2 "2"),
     ("ChargeDescription", .str "Fast Data Transfer during Build Minutes")])⟩

/-- A feed line cut short: it names a recognized service and `JSON.parse` throws on it. -/
def truncatedLine : Line :=
  ⟨"\x7b\"ServiceName\":\"Build Minutes\",\"ConsumedQuan", none⟩

/-- A feed line shorter than 10 characters. -/
def shortLine : Line := ⟨"\x7b\x7d", some (.obj [])⟩

/-- A feed line recording a credit of one build minute (a negative quantity). -/
def creditLine : Line :=
  ⟨"\x7b\"ServiceName\":\"Build Minutes\",\"ConsumedQuantity\":-1\x7d",
   some (.obj [("ServiceName", .str "Build Minutes"), ("ConsumedQuantity", .num (-1) "-1")])⟩

/-- An aggregation result in which every service has the total `u` and no consumer. -/
def flatBilling (u : ℚ) : BillingResult := fun _ => some ⟨u, []⟩

/-! ## Auxiliary notions for the projection claims -/

/-- The order ok < warn < danger of the risk tiers. -/
def Risk.rank : Risk → ℕ
  | .ok => 0
  | .warn => 1
  | .danger => 2

/-- A division that fails (`none`) on a zero divisor. -/
def checkedDiv (a b : ℚ) : Option ℚ := if b = 0 then none else some (a / b)

/-- The helper `r` with its division checked. -/
def rChecked (n : ℚ) (dec : ℕ) : Option ℚ := checkedDiv (mathRound (n * 10 ^ dec)) (10 ^ dec)

/-- The body of the projection loop with every division checked: `none` as soon as one
divisor is zero.  The division `remaining / rate` is evaluated in the branch `rate > 0`
only, as in the source. -/
def projectChecked (billing : BillingResult) (daysElapsed totalDays : ℚ) (svc : Svc) :
    Option Projection :=
  (checkedDiv (usedOf billing svc) daysElapsed).bind fun rate =>
  (rChecked (rate * totalDays) 1).bind fun projected =>
  (rChecked (LIMITS svc - usedOf billing svc) 1).bind fun remaining =>
  (if rate > 0 then (checkedDiv remaining rate).map mathRound else some 999).bind fun daysUntil =>
  (checkedDiv projected (LIMITS svc)).bind fun ratio =>
  (rChecked (ratio * 100) 1).bind fun projPct =>
  (rChecked (usedOf billing svc) 3).bind fun usedRounded =>
  (rChecked rate 2).map fun dailyRate =>
    { used := usedRounded
      limit := LIMITS svc
      unit := UNITS svc
      dailyRate := dailyRate
      projected := projected
      remaining := remaining
      daysUntil := daysUntil
      projPct := projPct
      risk := riskOf projPct
      perApp := match billing svc with
        | some e => e.perApp
        | none => [] }

/-- A feed line recording 0.004 build minutes for the project `pole`. -/
def smallLine : Line := usageLine .buildMinutes "0.004" (4 / 1000) "pole"

/-- The day number of a date, counted from 1 January 1970. -/
def dayNumber (d : JsDate) : ℤ :=
  dayFromYear d.year + daysBeforeMonth d.year d.month + ((d.date : ℤ) - 1)

/-- Every record the loop accepts from the feed has a non-negative quantity. -/
def NonNegativeQuantities (lines : List Line) : Prop :=
  ∀ line ∈ lines, ∀ svc obj, acceptedRecord line = some (svc, obj) → 0 ≤ quantityOf obj

/-! ## Tracked projects -/

/-- A feed whose only record names the consumer `__proto__`. -/
def protoFeed : List Line := [usageLine .buildMinutes "3" 3 "__proto__"]

/-- A feed whose only record names the consumer `constructor`. -/
def constructorFeed : List Line := [usageLine .buildMinutes "3" 3 "constructor"]

/-- The value of a hexadecimal digit. -/
def hexDigit? (c : Char) : Option ℕ :=
  if c.isDigit then some (c.toNat - 48)
  else if 'a'.toNat ≤ c.toNat ∧ c.toNat ≤ 'f'.toNat then some (c.toNat - 87)
  else if 'A'.toNat ≤ c.toNat ∧ c.toNat ≤ 'F'.toNat then some (c.toNat - 55)
  else none

/-- The hexadecimal digits at the start of a text. -/
def takeHexDigits : List Char → List ℕ
  | [] => []
  | c :: cs =>
    match hexDigit? c with
    | some d => d :: takeHexDigits cs
    | none => []

/-- The unsigned integer at the start of a text, as `parseInt` reads it without a radix:
hexadecimal after `0x` or `0X`, decimal otherwise; `none` when there is no digit. -/
def unsignedInt (cs : List Char) : Option ℤ :=
  match cs with
  | '0' :: 'x' :: rest | '0' :: 'X' :: rest =>
    if (takeHexDigits rest).isEmpty then none
    else some ((takeHexDigits rest).foldl (fun acc d => acc * 16 + d) 0 : ℕ)
  | rest =>
    if (takeDigits rest).1.isEmpty then none else some (digitsValue (takeDigits rest).1 : ℕ)

/-- The function `parseInt` on a text, `none` for NaN. -/
def parseIntText (s : String) : Option ℤ :=
  match s.data.dropWhile isStrWhiteSpace with
  | '-' :: rest => (unsignedInt rest).map fun n => -n
  | '+' :: rest => unsignedInt rest
  | rest => unsignedInt rest

/-- The function `parseInt` on a property value (`none` is `undefined`), through its
text. -/
def parseInt : Option Json → Option ℤ
  | none => none
  | some j => parseIntText (jsToString j)

/-- What one of the two requests of `fetchOpenAI` delivers: `fetch` rejects, or the
response is received and `json()` rejects, or `json()` returns a decoded value. -/
inductive Fetched where
  | rejected
  | noJson
  | body (value : Json)

/-- The values a `for (const x of v ?? [])` loop visits: none for `undefined` and `null`,
the items of an array, the characters of a text; any other value is not iterable and the
loop throws. -/
def iterate (v : Option Json) : Except JsError (List Json) :=
  match v with
  | none => .ok []
  | some .null => .ok []
  | some (.arr items) => .ok items
  | some (.str s) => .ok (s.data.map fun c => Json.str (String.singleton c))
  | some _ => .error .typeError

/-- A `for ... of` loop over `items` that updates an accumulator; the body returns the new
accumulator and the exception it raised, if any.  An exception ends the loop and keeps
what was accumulated before it. -/
def forOf (body : ℚ → Json → ℚ × Option JsError) : List Json → ℚ → ℚ × Option JsError
  | [], acc => (acc, none)
  | x :: xs, acc =>
    match (body acc x).2 with
    | none => forOf body xs (body acc x).1
    | some e => ((body acc x).1, some e)

/-- The loop `for (const x of v ?? [])`. -/
def forOfValue (body : ℚ → Json → ℚ × Option JsError) (v : Option Json) (acc : ℚ) :
    ℚ × Option JsError :=
  match iterate v with
  | .ok items => forOf body items acc
  | .error e => (acc, some e)

/-- The statement `totalCost += parseFloat(r.amount?.value) || 0`; reading a property of
`null` throws. -/
def addCost (acc : ℚ) (entry : Json) : ℚ × Option JsError :=
  match entry with
  | .null => (acc, some .typeError)
  | e => (acc + (parseFloat (optChain (getProp e "amount") "value")).getD 0, none)

/-- The statement `totalRequests += parseInt(r.num_model_requests) || 0`. -/
def addRequests (acc : ℚ) (entry : Json) : ℚ × Option JsError :=
  match entry with
  | .null => (acc, some .typeError)
  | e => (acc + (((parseInt (getProp e "num_model_requests")).getD 0 : ℤ) : ℚ), none)

/-- The inner loop `for (const r of b.results ?? [])` for one bucket `b`. -/
def overResults (add : ℚ → Json → ℚ × Option JsError) (acc : ℚ) (bucket : Json) :
    ℚ × Option JsError :=
  match bucket with
  | .null => (acc, some .typeError)
  | b => forOfValue add (getProp b "results") acc

/-- The outer loop `for (const b of page.data ?? [])` over a decoded page. -/
def overData (add : ℚ → Json → ℚ × Option JsError) (page : Json) (acc : ℚ) :
    ℚ × Option JsError :=
  match page with
  | .null => (acc, some .typeError)
  | p => forOfValue (overResults add) (getProp p "data") acc

/-- The variables `totalCost` and `totalRequests` when the `try` block of `fetchOpenAI` is
left, and the exception it was left with, if any.  A request or a `json()` that rejects
throws before any addition; the loop over the requests runs only when the loop over the
costs has ended without exception. -/
def openAITotals (costs usage : Fetched) : ℚ × ℚ × Option JsError :=
  match costs, usage with
  | .body c, .body u =>
    match (overData addCost c 0).2 with
    | some e => ((overData addCost c 0).1, 0, some e)
    | none => ((overData addCost c 0).1, (overData addRequests u 0).1, (overData addRequests u 0).2)
  | .rejected, _ => (0, 0, some .typeError)
  | _, .rejected => (0, 0, some .typeError)
  | _, _ => (0, 0, some .parseFailure)

/-- The object returned by `fetchOpenAI`. -/
structure OpenAIReport where
  totalCost : ℚ
  requests : ℚ
  costPerPrompt : ℚ
  monthlyProjected : ℚ
  deriving DecidableEq

/-- The part of `fetchOpenAI` after the `try` block, from the two totals; `sinceMs` is
`Date.now() - sinceDate.getTime()`. -/
def openAIReport (totalCost totalRequests : ℚ) (sinceMs : ℤ) : OpenAIReport :=
  let costPerPrompt := if totalRequests > 0 then r (totalCost / totalRequests) 4 else 0
  let daysSince := max ((sinceMs : ℚ) / 86400000) 1
  let monthlyProjected := r (totalCost / daysSince * 30) 2
  ⟨r totalCost 2, totalRequests, costPerPrompt, monthlyProjected⟩

/-- The function `fetchOpenAI`, exceptions of the `try` block caught. -/
def fetchOpenAI (costs usage : Fetched) (sinceMs : ℤ) : OpenAIReport :=
  openAIReport (openAITotals costs usage).1 (openAITotals costs usage).2.1 sinceMs

/-- Whether a fetch, decode or summation step of `fetchOpenAI` failed. -/
def openAIFailed (costs usage : Fetched) : Bool := (openAITotals costs usage).2.2.isSome

/-- A page of costs holding one entry of 5. -/
def costsPage : Json :=
  .obj [("data", .arr [.obj [("results", .arr [.obj [("amount", .obj [("value", .num 5 "5")])]])]])]

/-- A page of usage whose `data` is an object, not a list of buckets. -/
def brokenUsagePage : Json :=
  .obj [("data", .obj [("message", .str "unavailable")])]

/-! ## The handler -/

/-- The environment variables the handler reads; `none` is `undefined`. -/
structure Env where
  VERCEL_TOKEN : Option String
  VERCEL_TEAM_ID : Option String
  OPENAI_ADMIN_KEY : Option String
  OPENAI_PROJECT_ID : Option String

/-- The test `!v` on an environment variable: it is `undefined` or the empty text. -/
def isMissing (v : Option String) : Bool :=
  match v with
  | none => true
  | some s => s == ""

/-- The three upstream operations of the handler. -/
inductive Upstream where
  | fetchBilling
  | fetchDeploys
  | fetchOpenAI
  deriving DecidableEq, Repr

/-- The object returned by `fetchDeploys`: for each short name, `state` and `lastDate`. -/
abbrev Deploys := List (String × String × String)

/-- What the upstream operations deliver once invoked.  `billing` is the outcome of
`fetchBilling`: the message of the error it rejects with (`fetch` or `resp.text()` failed),
or `resp.ok` and the lines of the body.  `sinceMs` is `Date.now() - sinceDate.getTime()`
as `fetchOpenAI` reads it. -/
structure Upstreams where
  billing : Except String (Bool × List Line)
  deploys : Deploys
  costs : Fetched
  usage : Fetched
  sinceMs : ℤ

/-- The helper `pad`: `String(n).padStart(2, '0')`. -/
def pad (n : ℕ) : String :=
  if (toString n).length < 2 then "0" ++ toString n else toString n

/-- The helper `fmtDate` of the handler. -/
def fmtDate (d : JsDate) : String :=
  pad d.date ++ "/" ++ pad (d.month + 1) ++ "/" ++ toString d.year

/-- The object `period` of the report. -/
structure Period where
  fromDate : String
  toDate : String
  reset : String
  daysElapsed : ℚ
  daysRemaining : ℚ

/-- The report sent on success. -/
structure Report where
  period : Period
  proj : Svc → Projection
  deploys : Deploys
  openai : OpenAIReport
  generatedAt : String

/-- The JSON body of a response. -/
inductive Body where
  | error (message : String)
  | report (value : Report)

/-- A response of the handler: status and body. -/
structure Response where
  status : ℕ
  body : Body

/-- The message sent when a required environment variable is missing. -/
def missingEnvMessage : String := "Env vars manquants : VERCEL_TOKEN, VERCEL_TEAM_ID"

/-- The handler (`module.exports`): the response it sends, and the upstream operations it
invoked, in order.  `now` is the clock reading `new Date()` and `isoNow` its
`toISOString()`.  Past the credential check the three operations are invoked together
(`Promise.all`); only `fetchBilling` can reject, which the `catch` turns into a response
500 carrying the message of the error. -/
def handler (env : Env) (now : JsDate) (isoNow : String) (up : Upstreams) :
    Response × List Upstream :=
  if isMissing env.VERCEL_TOKEN || isMissing env.VERCEL_TEAM_ID then
    (⟨500, .error missingEnvMessage⟩, [])
  else
    match up.billing with
    | .error message => (⟨500, .error message⟩, [.fetchBilling, .fetchDeploys, .fetchOpenAI])
    | .ok (ok, lines) =>
      (⟨200, .report
        { period :=
            { fromDate := fmtDate (billingFrom now)
              toDate := fmtDate now
              reset := fmtDate (billingEnd now)
              daysElapsed := r (daysElapsed now) 1
              daysRemaining := r (daysRemaining now) 1 }
          proj := proj now (fetchBilling ok lines)
          deploys := up.deploys
          openai := fetchOpenAI up.costs up.usage up.sinceMs
          generatedAt := isoNow }⟩,
        [.fetchBilling, .fetchDeploys, .fetchOpenAI])

end Rubix

namespace Rubix

/-! ## Billing window: lemmas -/

theorem billingFrom_of_late (now : JsDate) (hy : 1970 ≤ now.year) (hm : now.month < 12)
    (hd : 20 ≤ now.date) : billingFrom now = ⟨now.year, now.month, 20, 0⟩ := by
  have h1 : ¬ (0 ≤ now.year ∧ now.year ≤ 99) := by omega
  simp only [billingFrom, ge_iff_le, hd, if_true, newDate, h1, if_false, JsDate.mk.injEq,
    and_true]
  constructor <;> omega

theorem billingFrom_of_early (now : JsDate) (hy : 1970 ≤ now.year) (hm : now.month < 12)
    (hd : now.date < 20) :
    billingFrom now =
      if now.month = 0 then ⟨now.year - 1, 11, 20, 0⟩ else ⟨now.year, now.month - 1, 20, 0⟩ := by
  have h1 : ¬ (0 ≤ now.year ∧ now.year ≤ 99) := by omega
  have h2 : ¬ (20 ≤ now.date) := by omega
  simp only [billingFrom, ge_iff_le, h2, if_false, newDate, h1]
  split_ifs with h0
  · simp only [JsDate.mk.injEq, and_true]; constructor <;> omega
  · simp only [JsDate.mk.injEq, and_true]; constructor <;> omega

theorem billingFrom_fields (now : JsDate) (hy : 1970 ≤ now.year) (hm : now.month < 12) :
    1969 ≤ (billingFrom now).year ∧ (billingFrom now).month < 12 ∧
      (billingFrom now).date = 20 ∧ (billingFrom now).ms = 0 := by
  rcases Nat.lt_or_ge now.date 20 with hd | hd
  · rw [billingFrom_of_early now hy hm hd]
    split_ifs with h0
    · exact ⟨by simp only; omega, by simp only; omega, rfl, rfl⟩
    · exact ⟨by simp only; omega, by simp only; omega, rfl, rfl⟩
  · rw [billingFrom_of_late now hy hm hd]
    exact ⟨by simp only; omega, hm, rfl, rfl⟩

theorem billingEnd_eq (now : JsDate) (hy : 1970 ≤ now.year) (hm : now.month < 12) :
    billingEnd now =
      if (billingFrom now).month = 11 then ⟨(billingFrom now).year + 1, 0, 20, 0⟩
      else ⟨(billingFrom now).year, (billingFrom now).month + 1, 20, 0⟩ := by
  obtain ⟨h1, h2, h3, -⟩ := billingFrom_fields now hy hm
  have h4 : ¬ (0 ≤ (billingFrom now).year ∧ (billingFrom now).year ≤ 99) := by omega
  simp only [billingEnd, newDate, h4, if_false, h3]
  split_ifs with h0
  · simp only [JsDate.mk.injEq, and_true]; constructor <;> omega
  · simp only [JsDate.mk.injEq, and_true]; constructor <;> omega

/-! ## Feed loop: lemmas -/

theorem serviceNameIs_null (svc : Svc) : serviceNameIs .null svc = false := rfl

/-- One iteration credits the accepted record of the line, and does nothing else. -/
theorem lineStep_eq (res : BillingResult) (line : Line) :
    lineStep res line =
      match acceptedRecord line with
      | some (svc, obj) => credit res svc obj
      | none => res := by
  unfold lineStep acceptedRecord
  split_ifs with hlen
  · rfl
  · cases hpf : preFilter line with
    | none => rfl
    | some svc =>
      cases hp : line.parsed with
      | none => simp [tryBody, hp]
      | some obj =>
        cases obj <;> simp [tryBody, hp, serviceNameIs_null] <;> split_ifs <;> rfl

theorem creditLine_accepted :
    acceptedRecord creditLine = some (.buildMinutes,
      .obj [("ServiceName", .str "Build Minutes"), ("ConsumedQuantity", .num (-1) "-1")]) := rfl

theorem creditLine_used : usedOf (fetchBilling true [creditLine]) .buildMinutes = -1 := by
  have hq : quantityOf (.obj [("ServiceName", .str "Build Minutes"),
      ("ConsumedQuantity", .num (-1) "-1")]) = -1 := by
    simp [quantityOf, getProp, lookupField, parseFloat]
  simp [fetchBilling, foldLines, lineStep_eq, creditLine_accepted, finalRound, credit, creditEntry,
    usedOf, hq]
  norm_num [r, mathRound]

/-! ## C1: risk tier -/

/-- C1: in every projection computed by the loop the risk tier is `danger` exactly when
projPct > 80, `warn` exactly when 50 < projPct ≤ 80 and `ok` exactly when projPct ≤ 50;
the projected percentages 50.0, 50.1, 80.0 and 80.1 are reached by the loop and give
`ok`, `warn`, `warn` and `danger`. -/
theorem C1_risk_tier_thresholds (billing : BillingResult) (elapsed total : ℚ) (svc : Svc) :
    ((project billing elapsed total svc).risk = .danger ↔
        80 < (project billing elapsed total svc).projPct) ∧
    ((project billing elapsed total svc).risk = .warn ↔
        50 < (project billing elapsed total svc).projPct ∧
          (project billing elapsed total svc).projPct ≤ 80) ∧
    ((project billing elapsed total svc).risk = .ok ↔
        (project billing elapsed total svc).projPct ≤ 50) ∧
    ((project (flatBilling 500) 1 1 .functionDuration).projPct = 50 ∧
      (project (flatBilling 500) 1 1 .functionDuration).risk = .ok) ∧
    ((project (flatBilling 501) 1 1 .functionDuration).projPct = 50.1 ∧
      (project (flatBilling 501) 1 1 .functionDuration).risk = .warn) ∧
    ((project (flatBilling 800) 1 1 .functionDuration).projPct = 80 ∧
      (project (flatBilling 800) 1 1 .functionDuration).risk = .warn) ∧
    ((project (flatBilling 801) 1 1 .functionDuration).projPct = 80.1 ∧
      (project (flatBilling 801) 1 1 .functionDuration).risk = .danger) := by
  have key : ∀ p : ℚ, (riskOf p = .danger ↔ 80 < p) ∧ (riskOf p = .warn ↔ 50 < p ∧ p ≤ 80) ∧
      (riskOf p = .ok ↔ p ≤ 50) := by
    intro p
    unfold riskOf
    refine ⟨?_, ?_, ?_⟩
    · split_ifs with h1 h2 <;> simp [h1]
    · split_ifs with h1 h2
      · simp; intro _; exact h1
      · simp; exact ⟨h2, le_of_not_lt h1⟩
      · simp; intro h3; exact absurd h3 h2
    · split_ifs with h1 h2
      · simp; linarith
      · simp; exact h2
      · simp; exact le_of_not_lt h2
  refine ⟨(key _).1, (key _).2.1, (key _).2.2, ?_, ?_, ?_, ?_⟩ <;>
    norm_num [project, flatBilling, usedOf, LIMITS, r, mathRound, riskOf]

/-! ## C2: days until exhaustion -/

/-- C2 (as stated) fails: a feed holding one credit of a build minute aggregates to a usage
of -1; with daysElapsed = 1 the daily rate is -1, not 0, yet daysUntil is the sentinel 999
and not round(remaining / dailyRate) = -6001. -/
theorem C2_counterexample_negative_rate :
    1 ≤ (1 : ℚ) ∧
    usedOf (fetchBilling true [creditLine]) .buildMinutes / 1 ≠ 0 ∧
    (project (fetchBilling true [creditLine]) 1 30 .buildMinutes).daysUntil = 999 ∧
    mathRound (r (LIMITS .buildMinutes - usedOf (fetchBilling true [creditLine]) .buildMinutes) 1 /
      (usedOf (fetchBilling true [creditLine]) .buildMinutes / 1)) = -6001 ∧
    (project (fetchBilling true [creditLine]) 1 30 .buildMinutes).daysUntil ≠
      mathRound (r (LIMITS .buildMinutes -
        usedOf (fetchBilling true [creditLine]) .buildMinutes) 1 /
        (usedOf (fetchBilling true [creditLine]) .buildMinutes / 1)) := by
  have h1 : (project (fetchBilling true [creditLine]) 1 30 .buildMinutes).daysUntil = 999 := by
    simp only [project, daysUntilOf, creditLine_used]
    norm_num
  have h2 : mathRound (r (LIMITS .buildMinutes -
      usedOf (fetchBilling true [creditLine]) .buildMinutes) 1 /
      (usedOf (fetchBilling true [creditLine]) .buildMinutes / 1)) = -6001 := by
    rw [creditLine_used]
    norm_num [LIMITS, r, mathRound]
  refine ⟨le_refl _, ?_, h1, h2, ?_⟩
  · rw [creditLine_used]; norm_num
  · rw [h1, h2]; decide

/-- C2 (amended): for every service, aggregated usage and daysElapsed ≥ 1, with
dailyRate = used / daysElapsed and remaining = r(limit - used, 1), the projection reports
that remaining; daysUntil is the sentinel 999 when dailyRate is 0 or negative, and
Math.round(remaining / dailyRate) when dailyRate is positive, whatever the sign of
remaining. -/
theorem C2_days_until (billing : BillingResult) (svc : Svc) (elapsed total : ℚ)
    (_helapsed : 1 ≤ elapsed) :
    (project billing elapsed total svc).remaining = r (LIMITS svc - usedOf billing svc) 1 ∧
    (usedOf billing svc / elapsed ≤ 0 → (project billing elapsed total svc).daysUntil = 999) ∧
    (0 < usedOf billing svc / elapsed →
      (project billing elapsed total svc).daysUntil =
        mathRound (r (LIMITS svc - usedOf billing svc) 1 / (usedOf billing svc / elapsed))) := by
  refine ⟨rfl, ?_, ?_⟩
  · intro h
    simp only [project, daysUntilOf, gt_iff_lt, not_lt.mpr h, if_false]
  · intro h
    simp only [project, daysUntilOf, gt_iff_lt, h, if_true]

/-- Witness of C2 (amended): usage 7000 of a limit of 6000 after two days; remaining is
negative, the rate is positive, and daysUntil is Math.round(remaining / rate). -/
theorem C2_days_until_witness :
    1 ≤ (2 : ℚ) ∧
    (project (flatBilling 7000) 2 30 .buildMinutes).remaining =
      r (LIMITS .buildMinutes - usedOf (flatBilling 7000) .buildMinutes) 1 ∧
    (usedOf (flatBilling 7000) .buildMinutes / 2 ≤ 0 →
      (project (flatBilling 7000) 2 30 .buildMinutes).daysUntil = 999) ∧
    (0 < usedOf (flatBilling 7000) .buildMinutes / 2 →
      (project (flatBilling 7000) 2 30 .buildMinutes).daysUntil =
        mathRound (r (LIMITS .buildMinutes - usedOf (flatBilling 7000) .buildMinutes) 1 /
          (usedOf (flatBilling 7000) .buildMinutes / 2))) :=
  ⟨by norm_num, C2_days_until (flatBilling 7000) .buildMinutes 2 30 (by norm_num)⟩

/-! ## C3: billing window -/

/-- C3: for every reading of the clock, the window starts at 00:00 on the 20th of the
current month when the day of the month is at least 20, and at 00:00 on the 20th of the
previous month otherwise (December of the previous year in January); the window ends at
00:00 on the 20th of the month after the start month (January of the next year after
December). -/
theorem C3_billing_window (now : JsDate) (hnow : now.IsClockReading) :
    (20 ≤ now.date → billingFrom now = ⟨now.year, now.month, 20, 0⟩) ∧
    (now.date < 20 → billingFrom now =
      if now.month = 0 then ⟨now.year - 1, 11, 20, 0⟩
      else ⟨now.year, now.month - 1, 20, 0⟩) ∧
    billingEnd now =
      (if (billingFrom now).month = 11 then ⟨(billingFrom now).year + 1, 0, 20, 0⟩
       else ⟨(billingFrom now).year, (billingFrom now).month + 1, 20, 0⟩) :=
  ⟨billingFrom_of_late now hnow.1 hnow.2.1, billingFrom_of_early now hnow.1 hnow.2.1,
    billingEnd_eq now hnow.1 hnow.2.1⟩

/-- Witness of C3: on 5 January 2026 at 08:00 the window runs from 20 December 2025 to
20 January 2026. -/
theorem C3_billing_window_witness :
    (⟨2026, 0, 5, 28800000⟩ : JsDate).IsClockReading ∧
    billingFrom ⟨2026, 0, 5, 28800000⟩ = ⟨2025, 11, 20, 0⟩ ∧
    billingEnd ⟨2026, 0, 5, 28800000⟩ = ⟨2026, 0, 20, 0⟩ := by
  have hc : (⟨2026, 0, 5, 28800000⟩ : JsDate).IsClockReading := by decide
  have h := C3_billing_window ⟨2026, 0, 5, 28800000⟩ hc
  have hfrom : billingFrom ⟨2026, 0, 5, 28800000⟩ = ⟨2025, 11, 20, 0⟩ := by
    rw [h.2.1 (by decide)]; rfl
  refine ⟨hc, hfrom, ?_⟩
  rw [h.2.2, hfrom]; rfl

/-! ## Rounding: lemmas -/

theorem mathRound_bounds (x : ℚ) :
    2 * x - 1 < 2 * (mathRound x : ℚ) ∧ 2 * (mathRound x : ℚ) ≤ 2 * x + 1 := by
  unfold mathRound
  have h1 := Int.floor_le (x + 1 / 2)
  have h2 := Int.lt_floor_add_one (x + 1 / 2)
  constructor <;> linarith

/-! ## The perApp object: lemmas -/

theorem ownProp_cons (k : String) (v : Option ℚ) (rest : PerApp) (key : String) :
    ownProp ((k, v) :: rest) key = if k = key then some v else ownProp rest key := rfl

theorem putOwn_cons (k : String) (w : Option ℚ) (rest : PerApp) (key : String) (v : Option ℚ) :
    putOwn ((k, w) :: rest) key v =
      if k = key then (k, v) :: rest else (k, w) :: putOwn rest key v := rfl

/-- The entry of `svc` after one more record of `svc`. -/
theorem credit_same (res : BillingResult) (svc : Svc) (obj : Json) :
    credit res svc obj svc = some (creditEntry ((res svc).getD ⟨0, []⟩) obj) := by
  simp [credit]

/-- A record of another service leaves the entry of `svc` as it is. -/
theorem credit_other (res : BillingResult) {svc other : Svc} (obj : Json) (h : svc ≠ other) :
    credit res other obj svc = res svc := by
  simp [credit, Function.update_noteq h]

theorem finalRound_apply (res : BillingResult) (svc : Svc) :
    finalRound res svc = (res svc).map fun e => ⟨r e.total 3, roundValues e.perApp⟩ := rfl

theorem quantityOf_record (name : String) (q : ℚ) (text : String) (tags : Json) :
    quantityOf (.obj [("ServiceName", .str name), ("ConsumedQuantity", .num q text),
      ("Tags", tags)]) = q := by
  simp [quantityOf, getProp, lookupField, parseFloat]

theorem appNameOf_record (name : String) (qv : Json) (tag : String) (htag : tag ≠ "") :
    appNameOf (.obj [("ServiceName", .str name), ("ConsumedQuantity", qv),
      ("Tags", .obj [("ProjectName", .str tag)])]) = tag := by
  simp [appNameOf, getProp, lookupField, optChain, truthy, htag, jsToString]

theorem credit_same_opt (res : BillingResult) (svc : Svc) (obj : Json) :
    credit res svc obj svc = creditOpt (res svc) obj := by
  simp [credit, creditOpt]

theorem recordsOf_nil (svc : Svc) : recordsOf [] svc = [] := rfl

theorem recordsOf_cons (line : Line) (rest : List Line) (svc : Svc) :
    recordsOf (line :: rest) svc =
      match acceptedRecord line with
      | some (s, obj) => if s = svc then obj :: recordsOf rest svc else recordsOf rest svc
      | none => recordsOf rest svc := by
  unfold recordsOf
  rw [List.filterMap_cons]
  cases h : acceptedRecord line with
  | none => rfl
  | some rec =>
    obtain ⟨s, obj⟩ := rec
    by_cases hs : s = svc <;> simp [hs]

/-- The entry of `svc` after the loop: the accepted records of `svc` credited in feed
order to the entry the loop started with. -/
theorem foldl_lineStep_apply (lines : List Line) (res : BillingResult) (svc : Svc) :
    lines.foldl lineStep res svc = (recordsOf lines svc).foldl creditOpt (res svc) := by
  induction lines generalizing res with
  | nil => rfl
  | cons line rest ih =>
    rw [List.foldl_cons, ih, recordsOf_cons, lineStep_eq]
    cases h : acceptedRecord line with
    | none => rfl
    | some rec =>
      obtain ⟨s, obj⟩ := rec
      by_cases hs : s = svc
      · subst hs
        simp only [if_true, List.foldl_cons, credit_same_opt]
      · have hs' : svc ≠ s := fun h => hs h.symm
        simp only [hs, if_false, credit_other res obj hs']

theorem foldLines_apply (lines : List Line) (svc : Svc) :
    foldLines lines svc = (recordsOf lines svc).foldl creditOpt none :=
  foldl_lineStep_apply lines _ svc

theorem foldl_creditOpt_isSome (recs : List Json) (e : Option ServiceUsage) :
    (recs.foldl creditOpt e).isSome = (e.isSome || !recs.isEmpty) := by
  induction recs generalizing e with
  | nil => simp
  | cons obj rest ih => rw [List.foldl_cons, ih]; simp [creditOpt]

theorem mem_recordsOf {lines : List Line} {svc : Svc} {obj : Json} :
    obj ∈ recordsOf lines svc ↔ ∃ line ∈ lines, acceptedRecord line = some (svc, obj) := by
  unfold recordsOf
  rw [List.mem_filterMap]
  constructor
  · rintro ⟨line, hl, h⟩
    refine ⟨line, hl, ?_⟩
    cases hacc : acceptedRecord line with
    | none => rw [hacc] at h; simp at h
    | some rec =>
      obtain ⟨s, o⟩ := rec
      rw [hacc] at h
      by_cases hs : s = svc
      · simp [hs] at h; rw [hs, h]
      · simp [hs] at h
  · rintro ⟨line, hl, h⟩
    exact ⟨line, hl, by simp [h]⟩

/-- A line without an accepted record leaves the loop state as it is. -/
theorem lineStep_of_not_accepted {line : Line} (h : acceptedRecord line = none)
    (res : BillingResult) : lineStep res line = res := by
  rw [lineStep_eq, h]

/-- A line without an accepted record can be removed from the feed. -/
theorem fetchBilling_remove_line {line : Line} (h : acceptedRecord line = none) (ok : Bool)
    (before after : List Line) :
    fetchBilling ok (before ++ line :: after) = fetchBilling ok (before ++ after) := by
  unfold fetchBilling foldLines
  rw [List.foldl_append, List.foldl_cons, lineStep_of_not_accepted h, ← List.foldl_append]

theorem serviceNameIs_iff (line : Line) (obj : Json) (h : line.parsed = some obj) (svc : Svc) :
    serviceNameIs obj svc = true ↔ decodedServiceName line = some svc.name := by
  unfold serviceNameIs decodedServiceName
  rw [h]
  cases hp : getProp obj "ServiceName" with
  | none => simp [hp]
  | some v => cases v <;> simp [hp]

theorem acceptedRecord_eq_some {line : Line} {svc : Svc} {obj : Json}
    (h : acceptedRecord line = some (svc, obj)) :
    10 ≤ jsLength line.text ∧ preFilter line = some svc ∧ line.parsed = some obj ∧
      serviceNameIs obj svc = true := by
  unfold acceptedRecord at h
  split_ifs at h with hlen
  cases hpf : preFilter line with
  | none => rw [hpf] at h; simp at h
  | some s =>
    rw [hpf] at h
    cases hp : line.parsed with
    | none => rw [hp] at h; simp at h
    | some o =>
      rw [hp] at h
      simp only at h
      split_ifs at h with hs
      obtain ⟨rfl, rfl⟩ := Prod.mk.inj (Option.some.inj h)
      exact ⟨not_lt.mp hlen, rfl, rfl, hs⟩

/-- What the loop accepts, full decode alone accepts. -/
theorem fullDecodeAccepts_of_accepts {line : Line} {svc : Svc} (h : Accepts line svc) :
    FullDecodeAccepts line svc := by
  obtain ⟨obj, hobj⟩ := h
  obtain ⟨h1, -, h3, h4⟩ := acceptedRecord_eq_some hobj
  exact ⟨h1, obj, h3, h4⟩

/-! ## C5: the textual pre-filter -/

set_option maxRecDepth 4000 in
/-- C5 at a failing input: the line of `mentionLine` is a record of Fast Data Transfer
whose description mentions Build Minutes.  Full decode alone accepts it for Fast Data
Transfer; the loop finds Build Minutes first in the text, compares the decoded ServiceName
with it, and drops the record: nothing is credited. -/
theorem C5_prefilter_drops_decodable_record :
    preFilter mentionLine = some .buildMinutes ∧
    decodedServiceName mentionLine = some (Svc.name .fastDataTransfer) ∧
    FullDecodeAccepts mentionLine .fastDataTransfer ∧
    ¬ Accepts mentionLine .fastDataTransfer ∧
    acceptedRecord mentionLine = none ∧
    fetchBilling true [mentionLine] .fastDataTransfer = none := by
  have hacc : acceptedRecord mentionLine = none := rfl
  refine ⟨by decide, rfl, ⟨by decide, _, rfl, rfl⟩, ?_, hacc, ?_⟩
  · rintro ⟨obj, hobj⟩
    rw [hacc] at hobj
    exact Option.noConfusion hobj
  · simp [fetchBilling, foldLines, lineStep_eq, hacc, finalRound_apply]

/-! ## C6: short lines and unrecognized services -/

theorem acceptedRecord_short {line : Line} (h : jsLength line.text < 10) :
    acceptedRecord line = none := by
  unfold acceptedRecord
  rw [if_pos h]

theorem acceptedRecord_unrecognized {line : Line}
    (h : ∀ svc : Svc, decodedServiceName line ≠ some svc.name) : acceptedRecord line = none := by
  cases hacc : acceptedRecord line with
  | none => rfl
  | some rec =>
    obtain ⟨svc, obj⟩ := rec
    obtain ⟨-, -, h3, h4⟩ := acceptedRecord_eq_some hacc
    exact absurd ((serviceNameIs_iff line obj h3 svc).mp h4) (h svc)

/-- C6: a line shorter than 10 characters, or whose decoded service name is none of the four
recognized services, contributes nothing: the aggregation of a feed holding the line is the
aggregation of the feed without it. -/
theorem C6_short_or_unrecognized_line (ok : Bool) (before after : List Line) (line : Line)
    (h : jsLength line.text < 10 ∨ ∀ svc : Svc, decodedServiceName line ≠ some svc.name) :
    fetchBilling ok (before ++ line :: after) = fetchBilling ok (before ++ after) := by
  rcases h with h | h
  · exact fetchBilling_remove_line (acceptedRecord_short h) ok before after
  · exact fetchBilling_remove_line (acceptedRecord_unrecognized h) ok before after

/-- Witness of C6: a line of two characters between the two records of the end-to-end
feed. -/
theorem C6_short_or_unrecognized_line_witness :
    (jsLength shortLine.text < 10 ∨
      ∀ svc : Svc, decodedServiceName shortLine ≠ some svc.name) ∧
    fetchBilling true ([usageLine .buildMinutes "10" 10 "pole"] ++
        shortLine :: [usageLine .buildMinutes "5" 5 "pitch"]) =
      fetchBilling true ([usageLine .buildMinutes "10" 10 "pole"] ++
        [usageLine .buildMinutes "5" 5 "pitch"]) :=
  ⟨Or.inl (by decide),
    C6_short_or_unrecognized_line true _ _ shortLine (Or.inl (by decide))⟩

/-! ## C7: malformed lines -/

/-- C7: on a line that fails structured decode, `JSON.parse` throws inside the `try` block,
the exception is caught and the loop state is unchanged; the aggregation of a feed holding
the line is a normal result, equal to the aggregation of the feed without the line. -/
theorem C7_malformed_line (ok : Bool) (before after : List Line) (line : Line)
    (h : line.parsed = none) :
    (∀ res svc, tryBody res svc line = .error .parseFailure) ∧
    (∀ res, lineStep res line = res) ∧
    fetchBilling ok (before ++ line :: after) = fetchBilling ok (before ++ after) := by
  have hacc : acceptedRecord line = none := by
    unfold acceptedRecord
    split_ifs
    · rfl
    · cases preFilter line <;> simp [h]
  refine ⟨?_, fun res => lineStep_of_not_accepted hacc res,
    fetchBilling_remove_line hacc ok before after⟩
  intro res svc
  simp [tryBody, h]

/-- Witness of C7: a line cut in the middle of a record of Build Minutes, between the two
records of the end-to-end feed; the result is that of the end-to-end feed. -/
theorem C7_malformed_line_witness :
    truncatedLine.parsed = none ∧
    10 ≤ jsLength truncatedLine.text ∧ preFilter truncatedLine = some .buildMinutes ∧
    (∀ res svc, tryBody res svc truncatedLine = .error .parseFailure) ∧
    (∀ res, lineStep res truncatedLine = res) ∧
    fetchBilling true ([usageLine .buildMinutes "10" 10 "pole"] ++
        truncatedLine :: [usageLine .buildMinutes "5" 5 "pitch"]) =
      fetchBilling true ([usageLine .buildMinutes "10" 10 "pole"] ++
        [usageLine .buildMinutes "5" 5 "pitch"]) :=
  ⟨rfl, by decide, by decide, C7_malformed_line true _ _ truncatedLine rfl⟩

/-! ## The perApp object as a mapping -/

theorem ownProp_putOwn (p : PerApp) (k : String) (v : Option ℚ) (key : String) :
    ownProp (putOwn p k v) key = if k = key then some v else ownProp p key := by
  induction p with
  | nil => simp [putOwn, ownProp]
  | cons kv rest ih =>
    obtain ⟨k0, w⟩ := kv
    rw [putOwn_cons]
    by_cases h0 : k0 = k
    · subst h0
      rw [if_pos rfl, ownProp_cons, ownProp_cons]
      split_ifs <;> rfl
    · rw [if_neg h0, ownProp_cons, ih, ownProp_cons]
      by_cases h1 : k0 = key
      · have : ¬ k = key := fun h => h0 (h1.trans h.symm)
        simp [h1, this]
      · simp [h1]

theorem ownProp_addToApp (p : PerApp) (k : String) (qty : ℚ) :
    ownProp (addToApp p k qty) = addToMapping (ownProp p) k qty := by
  funext key
  unfold addToApp assignSlot addToMapping readSlot
  by_cases hk : k = "__proto__"
  · simp [hk]
  · rw [if_neg hk, ownProp_putOwn]
    by_cases hkey : k = key
    · subst hkey
      simp [hk]
    · simp [hkey]

theorem asMapping_creditEntry (e : ServiceUsage) (obj : Json) :
    (creditEntry e obj).asMapping = creditMapping e.asMapping obj := by
  simp [creditEntry, ServiceUsage.asMapping, creditMapping, ownProp_addToApp]

theorem asMapping_empty : (⟨0, []⟩ : ServiceUsage).asMapping = (0, fun _ => none) := rfl

theorem map_creditOpt (e : Option ServiceUsage) (obj : Json) :
    (creditOpt e obj).map ServiceUsage.asMapping =
      creditMappingOpt (e.map ServiceUsage.asMapping) obj := by
  cases e <;> simp [creditOpt, creditMappingOpt, asMapping_creditEntry, asMapping_empty]

theorem map_foldl_creditOpt (recs : List Json) (e : Option ServiceUsage) :
    (recs.foldl creditOpt e).map ServiceUsage.asMapping =
      recs.foldl creditMappingOpt (e.map ServiceUsage.asMapping) := by
  induction recs generalizing e with
  | nil => rfl
  | cons obj rest ih => rw [List.foldl_cons, List.foldl_cons, ih, map_creditOpt]

theorem slotPlus_comm (s : Slot) (key : String) (a b : ℚ) :
    slotPlus (slotOf (some (slotPlus s a)) key) b = slotPlus (slotOf (some (slotPlus s b)) key) a := by
  cases s <;> simp [slotPlus, slotOf] <;> ring

/-- Two credits commute on the mapping. -/
theorem addToMapping_comm (m : Mapping) (k1 k2 : String) (q1 q2 : ℚ) :
    addToMapping (addToMapping m k1 q1) k2 q2 = addToMapping (addToMapping m k2 q2) k1 q1 := by
  funext key
  unfold addToMapping
  by_cases h12 : k1 = k2
  · subst h12
    by_cases hp : k1 = "__proto__"
    · simp [hp]
    · by_cases hk : k1 = key
      · simp [hk, hp, hk ▸ hp, slotPlus_comm]
      · simp [hk, hp]
  · have h21 : ¬ k2 = k1 := fun h => h12 h.symm
    by_cases hk1 : k1 = key
    · have hk2 : ¬ k2 = key := fun h => h12 (hk1.trans h.symm)
      simp [hk1, hk2, h12, h21, hk1 ▸ h21]
    · by_cases hk2 : k2 = key
      · simp [hk1, hk2, h12, h21, hk2 ▸ h12]
      · simp [hk1, hk2, h12, h21]

theorem creditMapping_comm (v : ℚ × Mapping) (a b : Json) :
    creditMapping (creditMapping v a) b = creditMapping (creditMapping v b) a := by
  unfold creditMapping
  simp only [Prod.mk.injEq]
  exact ⟨add_right_comm _ _ _, addToMapping_comm _ _ _ _ _⟩

theorem creditMappingOpt_comm (v : Option (ℚ × Mapping)) (a b : Json) :
    creditMappingOpt (creditMappingOpt v a) b = creditMappingOpt (creditMappingOpt v b) a := by
  simp [creditMappingOpt, creditMapping_comm]

theorem ownProp_roundValues (p : PerApp) (key : String) :
    ownProp (roundValues p) key = (ownProp p key).map fun v => v.map fun q => r q 3 := by
  induction p with
  | nil => rfl
  | cons kv rest ih =>
    obtain ⟨k, v⟩ := kv
    have : roundValues ((k, v) :: rest) = (k, v.map fun q => r q 3) :: roundValues rest := rfl
    rw [this, ownProp_cons, ownProp_cons, ih]
    split_ifs <;> rfl

/-- The mapping after the final rounding is a function of the mapping before it. -/
theorem finalRound_mapping (res : BillingResult) (svc : Svc) :
    (finalRound res svc).map ServiceUsage.asMapping =
      ((res svc).map ServiceUsage.asMapping).map fun v =>
        (r v.1 3, fun key => (v.2 key).map fun w => w.map fun q => r q 3) := by
  rw [finalRound_apply]
  cases res svc with
  | none => rfl
  | some e =>
    simp only [Option.map_some', ServiceUsage.asMapping, Option.some.injEq, Prod.mk.injEq, true_and]
    funext key
    exact ownProp_roundValues _ _

theorem recordsOf_perm {l1 l2 : List Line} (h : l1.Perm l2) (svc : Svc) :
    (recordsOf l1 svc).Perm (recordsOf l2 svc) :=
  h.filterMap _

/-! ## C9: order independence -/

/-- C9: aggregation is order-independent: for every feed and every permutation of its
lines fetchBilling yields the same mapping (the same services, the same totals, the same
perApp keys and values), quantities being exact numbers. -/
theorem C9_order_independent (ok : Bool) (lines permuted : List Line)
    (hperm : lines.Perm permuted) :
    SameMapping (fetchBilling ok lines) (fetchBilling ok permuted) := by
  intro svc
  cases ok with
  | false => rfl
  | true =>
    simp only [fetchBilling, Bool.not_true, Bool.false_eq_true, if_false]
    rw [finalRound_mapping, finalRound_mapping, foldLines_apply, foldLines_apply,
      map_foldl_creditOpt, map_foldl_creditOpt]
    congr 1
    exact (recordsOf_perm hperm svc).foldl_eq' (fun x _ y _ z => creditMappingOpt_comm z x y) _

/-- Witness of C9: the end-to-end feed and the same feed with its two lines swapped. -/
theorem C9_order_independent_witness :
    sampleFeed.Perm [usageLine .buildMinutes "5" 5 "pitch", usageLine .buildMinutes "10" 10 "pole"] ∧
    SameMapping (fetchBilling true sampleFeed)
      (fetchBilling true
        [usageLine .buildMinutes "5" 5 "pitch", usageLine .buildMinutes "10" 10 "pole"]) :=
  ⟨List.Perm.swap _ _ _, C9_order_independent true _ _ (List.Perm.swap _ _ _)⟩

/-! ## C10: absent services -/

theorem r_zero (dec : ℕ) : r 0 dec = 0 := by
  simp [r, mathRound]
  norm_num

theorem r_limit (svc : Svc) : r (LIMITS svc) 1 = LIMITS svc := by
  cases svc <;> norm_num [LIMITS, r, mathRound]

/-- The projection of a service that the aggregation result does not hold. -/
theorem project_absent (billing : BillingResult) (svc : Svc) (elapsed total : ℚ)
    (h : billing svc = none) :
    project billing elapsed total svc =
      ⟨0, LIMITS svc, UNITS svc, 0, 0, LIMITS svc, 999, 0, .ok, []⟩ := by
  simp [project, usedOf, h, r_zero, r_limit, daysUntilOf, riskOf]
  norm_num

theorem fetchBilling_isSome (lines : List Line) (svc : Svc) :
    (fetchBilling true lines svc).isSome = true ↔ ∃ line ∈ lines, Accepts line svc := by
  simp only [fetchBilling, Bool.not_true, Bool.false_eq_true, if_false, finalRound_apply,
    Option.isSome_map', foldLines_apply, foldl_creditOpt_isSome]
  simp only [Option.isSome_none, Bool.false_or, Bool.not_eq_true', List.isEmpty_eq_false]
  constructor
  · intro h
    obtain ⟨obj, hobj⟩ := List.exists_mem_of_ne_nil _ h
    obtain ⟨line, hl, hacc⟩ := mem_recordsOf.mp hobj
    exact ⟨line, hl, obj, hacc⟩
  · rintro ⟨line, hl, obj, hacc⟩
    exact List.ne_nil_of_mem (mem_recordsOf.mpr ⟨line, hl, hacc⟩)

/-- C10: a recognized service is a key of the aggregation result exactly when the loop
accepted at least one line of the feed for it; for a service absent from the result the
projection takes the usage as zero: used 0, dailyRate 0, projected 0, remaining = limit,
daysUntil 999, projPct 0, risk ok, perApp empty. -/
theorem C10_absent_service (lines : List Line) (svc : Svc) (elapsed total : ℚ)
    (_helapsed : 1 ≤ elapsed) :
    ((fetchBilling true lines svc).isSome = true ↔ ∃ line ∈ lines, Accepts line svc) ∧
    (fetchBilling true lines svc = none →
      project (fetchBilling true lines) elapsed total svc =
        ⟨0, LIMITS svc, UNITS svc, 0, 0, LIMITS svc, 999, 0, .ok, []⟩) := by
  exact ⟨fetchBilling_isSome lines svc, project_absent _ svc elapsed total⟩

/-- Witness of C10: in the end-to-end feed Build Minutes is present and Function Duration
is absent; three days into a window of 31 days, the projection of Function Duration is the
zero projection. -/
theorem C10_absent_service_witness :
    (1 : ℚ) ≤ 3 ∧
    fetchBilling true sampleFeed .functionDuration = none ∧
    ((fetchBilling true sampleFeed .functionDuration).isSome = true ↔
      ∃ line ∈ sampleFeed, Accepts line .functionDuration) ∧
    (fetchBilling true sampleFeed .functionDuration = none →
      project (fetchBilling true sampleFeed) 3 31 .functionDuration =
        ⟨0, 1000, "GB-h", 0, 0, 1000, 999, 0, .ok, []⟩) := by
  have h1 : acceptedRecord (usageLine .buildMinutes "10" 10 "pole") =
    some (.buildMinutes, _) := rfl
  have h2 : acceptedRecord (usageLine .buildMinutes "5" 5 "pitch") =
    some (.buildMinutes, _) := rfl
  have habsent : fetchBilling true sampleFeed .functionDuration = none := by
    simp [fetchBilling, sampleFeed, foldLines, lineStep_eq, h1, h2, finalRound_apply,
      credit_other]
  exact ⟨by norm_num, habsent, C10_absent_service sampleFeed .functionDuration 3 31 (by norm_num)⟩

/-! ## C8: feeds of well-formed records of one service -/

theorem r_eq_div (n : ℚ) (dec : ℕ) : r n dec = (mathRound (n * 10 ^ dec) : ℚ) / 10 ^ dec := rfl

theorem mathRound_mono {x y : ℚ} (h : x ≤ y) : mathRound x ≤ mathRound y := by
  unfold mathRound
  exact Int.floor_mono (by linarith)

theorem r_mono (dec : ℕ) {x y : ℚ} (h : x ≤ y) : r x dec ≤ r y dec := by
  have hP : (0 : ℚ) < 10 ^ dec := by positivity
  rw [r_eq_div, r_eq_div]
  apply div_le_div_of_nonneg_right _ hP.le
  exact_mod_cast mathRound_mono (mul_le_mul_of_nonneg_right h hP.le)

/-- Math.round gives a nearest integer, and the greater one of two nearest integers. -/
theorem mathRound_nearest (x : ℚ) (k : ℤ) :
    |(mathRound x : ℚ) - x| ≤ |(k : ℚ) - x| ∧
      (|(k : ℚ) - x| = |(mathRound x : ℚ) - x| → k ≤ mathRound x) := by
  have hb := mathRound_bounds x
  have hm : |(mathRound x : ℚ) - x| ≤ 1 / 2 := by
    rw [abs_le]; constructor <;> linarith [hb.1, hb.2]
  rcases lt_trichotomy k (mathRound x) with hlt | heq | hgt
  · have h1 : (k : ℚ) + 1 ≤ mathRound x := by exact_mod_cast hlt
    have h2 : (1 : ℚ) / 2 ≤ |(k : ℚ) - x| := by
      rw [abs_sub_comm, le_abs]; left; linarith [hb.1]
    exact ⟨hm.trans h2, fun _ => hlt.le⟩
  · subst heq
    exact ⟨le_refl _, fun _ => le_refl _⟩
  · have h1 : (mathRound x : ℚ) + 1 ≤ k := by exact_mod_cast hgt
    have h2 : (1 : ℚ) / 2 < |(k : ℚ) - x| := by
      rw [lt_abs]; left; linarith [hb.2]
    exact ⟨hm.trans h2.le, fun h => absurd (h ▸ h2) (not_lt.mpr hm)⟩

theorem abs_div_sub (a x : ℚ) {P : ℚ} (hP : 0 < P) : |a / P - x / P| = |a - x| / P := by
  rw [← sub_div, abs_div, abs_of_pos hP]

/-- C11 (as stated) fails: -0.25 lies halfway between the tenths -0.3 and -0.2, and
r(-0.25, 1) is -0.2, the one of smaller absolute value. -/
theorem C11_counterexample_negative_half :
    r (-1 / 4) 1 = -1 / 5 ∧
    |(-3 / 10 : ℚ) - (-1 / 4)| = |r (-1 / 4) 1 - (-1 / 4)| ∧
    (-3 / 10 : ℚ) = ((-3 : ℤ) : ℚ) / 10 ^ 1 ∧
    |r (-1 / 4) 1| < |(-3 / 10 : ℚ)| := by
  have h : r (-1 / 4) 1 = -1 / 5 := by norm_num [r, mathRound]
  rw [h]
  refine ⟨rfl, ?_, ?_, ?_⟩ <;> norm_num [abs_of_neg, abs_of_pos]

/-- C11 (amended): for every exact number n and every number of decimals dec, r(n, dec) is
a multiple of 10^-dec nearest to n, and when n lies exactly halfway between two such
multiples it is the greater one (ties go toward +∞): the one of larger absolute value for
n ≥ 0, the one of smaller absolute value for n ≤ 0. -/
theorem C11_round_half_up (n : ℚ) (dec : ℕ) :
    (∃ k : ℤ, r n dec = (k : ℚ) / 10 ^ dec) ∧
    (∀ k : ℤ, |r n dec - n| ≤ |(k : ℚ) / 10 ^ dec - n|) ∧
    (∀ k : ℤ, |(k : ℚ) / 10 ^ dec - n| = |r n dec - n| → (k : ℚ) / 10 ^ dec ≤ r n dec) ∧
    (∀ k : ℤ, 0 ≤ n → |(k : ℚ) / 10 ^ dec - n| = |r n dec - n| →
      |(k : ℚ) / 10 ^ dec| ≤ |r n dec|) ∧
    (∀ k : ℤ, n ≤ 0 → |(k : ℚ) / 10 ^ dec - n| = |r n dec - n| →
      |r n dec| ≤ |(k : ℚ) / 10 ^ dec|) := by
  have hP : (0 : ℚ) < 10 ^ dec := by positivity
  have hn : n = n * 10 ^ dec / 10 ^ dec := by field_simp
  have hdist : ∀ k : ℤ, |(k : ℚ) / 10 ^ dec - n| = |(k : ℚ) - n * 10 ^ dec| / 10 ^ dec := by
    intro k
    conv_lhs => rw [hn]
    exact abs_div_sub _ _ hP
  have hr : |r n dec - n| = |(mathRound (n * 10 ^ dec) : ℚ) - n * 10 ^ dec| / 10 ^ dec := by
    rw [r_eq_div]; exact hdist _
  have hnear : ∀ k : ℤ, |r n dec - n| ≤ |(k : ℚ) / 10 ^ dec - n| := by
    intro k
    rw [hr, hdist]
    exact div_le_div_of_nonneg_right (mathRound_nearest _ k).1 hP.le
  have htie : ∀ k : ℤ, |(k : ℚ) / 10 ^ dec - n| = |r n dec - n| →
      (k : ℚ) / 10 ^ dec ≤ r n dec := by
    intro k hk
    rw [hr, hdist] at hk
    have hk' := (div_left_inj' hP.ne').mp hk
    rw [r_eq_div]
    apply div_le_div_of_nonneg_right _ hP.le
    exact_mod_cast (mathRound_nearest _ k).2 hk'
  refine ⟨⟨_, rfl⟩, hnear, htie, ?_, ?_⟩
  · intro k h0 hk
    have hle := htie k hk
    have hr0 : 0 ≤ r n dec := by
      have := r_mono dec h0
      rwa [r_zero] at this
    rw [abs_of_nonneg hr0, abs_le]
    refine ⟨?_, hle⟩
    rcases abs_eq_abs.mp hk with h | h
    · linarith
    · linarith
  · intro k h0 hk
    have hle := htie k hk
    have hr0 : r n dec ≤ 0 := by
      have := r_mono dec h0
      rwa [r_zero] at this
    rw [abs_of_nonpos hr0, abs_of_nonpos (hle.trans hr0)]
    linarith

/-! ## C20: monotonicity of the projection -/

theorem LIMITS_pos (svc : Svc) : 0 < LIMITS svc := by
  cases svc <;> norm_num [LIMITS]

theorem riskOf_mono {p q : ℚ} (h : p ≤ q) : (riskOf p).rank ≤ (riskOf q).rank := by
  unfold riskOf
  split_ifs <;> simp [Risk.rank] <;> linarith

/-- C20: more usage never lowers the risk: for every service, daysElapsed ≥ 1,
totalDays > 0 and usages 0 ≤ u1 ≤ u2, the projected value and projPct computed from u1 are
at most those computed from u2, and the risk tier of u1 is not above the tier of u2 in the
order ok < warn < danger. -/
theorem C20_more_usage_never_lowers_risk (b1 b2 : BillingResult) (svc : Svc)
    (elapsed total : ℚ) (helapsed : 1 ≤ elapsed) (htotal : 0 < total)
    (_h0 : 0 ≤ usedOf b1 svc) (h12 : usedOf b1 svc ≤ usedOf b2 svc) :
    (project b1 elapsed total svc).projected ≤ (project b2 elapsed total svc).projected ∧
    (project b1 elapsed total svc).projPct ≤ (project b2 elapsed total svc).projPct ∧
    (project b1 elapsed total svc).risk.rank ≤ (project b2 elapsed total svc).risk.rank := by
  have he : (0 : ℚ) < elapsed := by linarith
  have hrate : usedOf b1 svc / elapsed ≤ usedOf b2 svc / elapsed :=
    div_le_div_of_nonneg_right h12 he.le
  have hproj : r (usedOf b1 svc / elapsed * total) 1 ≤ r (usedOf b2 svc / elapsed * total) 1 :=
    r_mono 1 (mul_le_mul_of_nonneg_right hrate htotal.le)
  have hpct : r (r (usedOf b1 svc / elapsed * total) 1 / LIMITS svc * 100) 1 ≤
      r (r (usedOf b2 svc / elapsed * total) 1 / LIMITS svc * 100) 1 := by
    apply r_mono
    apply mul_le_mul_of_nonneg_right _ (by norm_num)
    exact div_le_div_of_nonneg_right hproj (LIMITS_pos svc).le
  exact ⟨hproj, hpct, riskOf_mono hpct⟩

/-- Witness of C20: usages 500 and 801 of a limit of 1000, one day into a window of one
day: projected 500 ≤ 801, projPct 50 ≤ 80.1, ok ≤ danger. -/
theorem C20_more_usage_never_lowers_risk_witness :
    (1 : ℚ) ≤ 1 ∧ (0 : ℚ) < 1 ∧ 0 ≤ usedOf (flatBilling 500) .functionDuration ∧
    usedOf (flatBilling 500) .functionDuration ≤ usedOf (flatBilling 801) .functionDuration ∧
    (project (flatBilling 500) 1 1 .functionDuration).projected ≤
      (project (flatBilling 801) 1 1 .functionDuration).projected ∧
    (project (flatBilling 500) 1 1 .functionDuration).projPct ≤
      (project (flatBilling 801) 1 1 .functionDuration).projPct ∧
    (project (flatBilling 500) 1 1 .functionDuration).risk.rank ≤
      (project (flatBilling 801) 1 1 .functionDuration).risk.rank :=
  ⟨le_refl _, by norm_num, by norm_num [usedOf, flatBilling],
    by norm_num [usedOf, flatBilling],
    C20_more_usage_never_lowers_risk (flatBilling 500) (flatBilling 801) .functionDuration 1 1
      (le_refl _) (by norm_num) (by norm_num [usedOf, flatBilling])
      (by norm_num [usedOf, flatBilling])⟩

/-! ## C17: the reported daily rate -/

theorem smallLine_result : fetchBilling true [smallLine] .buildMinutes =
    some ⟨4 / 1000, [("pole", some (4 / 1000))]⟩ := by
  have h1 : acceptedRecord smallLine = some (.buildMinutes, _) := rfl
  simp only [fetchBilling, foldLines, List.foldl_cons, List.foldl_nil, lineStep_eq, h1]
  simp [finalRound_apply, credit_same, creditEntry, quantityOf_record, appNameOf_record, addToApp,
    assignSlot, readSlot, slotOf, ownProp, isInheritedKey, objectPrototypeMethods, slotPlus, putOwn,
    roundValues, Svc.name]
  norm_num [r, mathRound]

/-- C17 (as stated) fails: a feed holding one record of 0.004 build minutes gives the usage
0.004; one day into the window the rate is 0.004, the reported dailyRate r(0.004, 2) is
exactly 0, and daysUntil is Math.round(6000 / 0.004) = 1500000, not the sentinel 999. -/
theorem C17_counterexample_rate_rounds_to_zero :
    0 ≤ usedOf (fetchBilling true [smallLine]) .buildMinutes ∧ (1 : ℚ) ≤ 1 ∧
    (project (fetchBilling true [smallLine]) 1 30 .buildMinutes).dailyRate = 0 ∧
    (project (fetchBilling true [smallLine]) 1 30 .buildMinutes).daysUntil = 1500000 ∧
    (project (fetchBilling true [smallLine]) 1 30 .buildMinutes).daysUntil ≠ 999 := by
  have hu : usedOf (fetchBilling true [smallLine]) .buildMinutes = 4 / 1000 := by
    simp [usedOf, smallLine_result]
  have hd : (project (fetchBilling true [smallLine]) 1 30 .buildMinutes).daysUntil = 1500000 := by
    simp only [project, daysUntilOf, hu]
    norm_num [LIMITS, r, mathRound]
  refine ⟨by rw [hu]; norm_num, le_refl _, ?_, hd, by rw [hd]; decide⟩
  simp only [project, hu]
  norm_num [r, mathRound]

/-- C17 (amended): in every ProjectionResult, for every used ≥ 0 and daysElapsed ≥ 1,
daysUntil is the sentinel 999 whenever the rate used / daysElapsed itself is 0, that is
whenever used = 0, and the reported dailyRate is then 0; when used > 0, daysUntil is
Math.round(remaining / rate), also when the reported dailyRate rounds to 0. -/
theorem C17_days_until_from_unrounded_rate (billing : BillingResult) (svc : Svc)
    (elapsed total : ℚ) (_hused : 0 ≤ usedOf billing svc) (helapsed : 1 ≤ elapsed) :
    (usedOf billing svc / elapsed = 0 ↔ usedOf billing svc = 0) ∧
    (usedOf billing svc = 0 →
      (project billing elapsed total svc).dailyRate = 0 ∧
      (project billing elapsed total svc).daysUntil = 999) ∧
    (0 < usedOf billing svc →
      (project billing elapsed total svc).daysUntil =
        mathRound ((project billing elapsed total svc).remaining /
          (usedOf billing svc / elapsed))) := by
  have he : (0 : ℚ) < elapsed := by linarith
  refine ⟨?_, ?_, ?_⟩
  · rw [div_eq_zero_iff]
    constructor
    · rintro (h | h)
      · exact h
      · exact absurd h he.ne'
    · exact fun h => Or.inl h
  · intro h0
    simp [project, daysUntilOf, h0, r_zero]
  · intro hpos
    have hr : 0 < usedOf billing svc / elapsed := div_pos hpos he
    simp only [project, daysUntilOf, gt_iff_lt, hr, if_true]

/-- Witness of C17 (amended): usage 0.004 of Build Minutes one day into the window. -/
theorem C17_days_until_from_unrounded_rate_witness :
    0 ≤ usedOf (flatBilling (4 / 1000)) .buildMinutes ∧ (1 : ℚ) ≤ 1 ∧
    (usedOf (flatBilling (4 / 1000)) .buildMinutes / 1 = 0 ↔
      usedOf (flatBilling (4 / 1000)) .buildMinutes = 0) ∧
    (usedOf (flatBilling (4 / 1000)) .buildMinutes = 0 →
      (project (flatBilling (4 / 1000)) 1 30 .buildMinutes).dailyRate = 0 ∧
      (project (flatBilling (4 / 1000)) 1 30 .buildMinutes).daysUntil = 999) ∧
    (0 < usedOf (flatBilling (4 / 1000)) .buildMinutes →
      (project (flatBilling (4 / 1000)) 1 30 .buildMinutes).daysUntil =
        mathRound ((project (flatBilling (4 / 1000)) 1 30 .buildMinutes).remaining /
          (usedOf (flatBilling (4 / 1000)) .buildMinutes / 1))) :=
  ⟨by norm_num [usedOf, flatBilling], le_refl _,
    C17_days_until_from_unrounded_rate (flatBilling (4 / 1000)) .buildMinutes 1 30
      (by norm_num [usedOf, flatBilling]) (le_refl _)⟩

/-! ## C13: no division by zero -/

theorem one_le_daysElapsed (now : JsDate) : 1 ≤ daysElapsed now := le_max_right _ _

theorem checkedDiv_of_ne {b : ℚ} (h : b ≠ 0) (a : ℚ) : checkedDiv a b = some (a / b) := by
  simp [checkedDiv, h]

theorem rChecked_eq (n : ℚ) (dec : ℕ) : rChecked n dec = some (r n dec) := by
  have hP : (10 : ℚ) ^ dec ≠ 0 := by positivity
  simp [rChecked, checkedDiv_of_ne hP, r]

/-- The checked projection succeeds as soon as daysElapsed is not zero. -/
theorem projectChecked_eq (billing : BillingResult) (elapsed total : ℚ) (svc : Svc)
    (he : elapsed ≠ 0) :
    projectChecked billing elapsed total svc = some (project billing elapsed total svc) := by
  unfold projectChecked
  simp only [checkedDiv_of_ne he, rChecked_eq, checkedDiv_of_ne (LIMITS_pos svc).ne',
    Option.some_bind, Option.map_some']
  by_cases hr : usedOf billing svc / elapsed > 0
  · have hne : usedOf billing svc / elapsed ≠ 0 := ne_of_gt hr
    simp [hr, checkedDiv_of_ne hne, project, daysUntilOf]
  · simp [hr, project, daysUntilOf]

/-- C13: the projection has no failure case: for every clock instant and every aggregation
result, daysElapsed ≥ 1, every configured limit is non-zero, and the projection of every
service with all its divisions checked (`remaining / rate` being evaluated only when
rate > 0) meets no zero divisor and yields the projection of the report. -/
theorem C13_no_zero_divisor (now : JsDate) (billing : BillingResult) (svc : Svc) :
    1 ≤ daysElapsed now ∧ LIMITS svc ≠ 0 ∧
    projectChecked billing (daysElapsed now) (totalDays now) svc = some (proj now billing svc) ∧
    (∀ remaining rate : ℚ, rate > 0 →
      (checkedDiv remaining rate).map mathRound = some (daysUntilOf remaining rate)) := by
  have h1 := one_le_daysElapsed now
  refine ⟨h1, (LIMITS_pos svc).ne', projectChecked_eq _ _ _ _ (by linarith), ?_⟩
  intro remaining rate hr
  simp [checkedDiv_of_ne (ne_of_gt hr), daysUntilOf, hr]

/-! ## C18: the window contains the clock reading -/

theorem dayFromYear_succ (y : ℤ) :
    dayFromYear (y + 1) = dayFromYear y + if isLeapYear y then 366 else 365 := by
  unfold dayFromYear
  by_cases h4 : y % 4 = 0 <;> by_cases h100 : y % 100 = 0 <;> by_cases h400 : y % 400 = 0 <;>
    simp [isLeapYear, h4, h100, h400] <;> omega

theorem daysBeforeMonth_zero (y : ℤ) : daysBeforeMonth y 0 = 0 := rfl

theorem daysBeforeMonth_succ (y : ℤ) (m : ℕ) :
    daysBeforeMonth y (m + 1) = daysBeforeMonth y m + daysInMonth y m := by
  simp [daysBeforeMonth, List.range_succ]

theorem daysBeforeMonth_twelve (y : ℤ) :
    daysBeforeMonth y 12 = if isLeapYear y then 366 else 365 := by
  simp only [daysBeforeMonth_succ, daysBeforeMonth_zero, daysInMonth]
  split_ifs <;> rfl

theorem daysInMonth_bounds (y : ℤ) (m : ℕ) : 28 ≤ daysInMonth y m ∧ daysInMonth y m ≤ 31 := by
  unfold daysInMonth
  split
  · split_ifs <;> omega
  all_goals omega

/-- The day number of the first day of a month. -/
theorem firstOfNextMonth (y : ℤ) (m : ℕ) (hm : m < 12) :
    (if m = 11 then dayFromYear (y + 1) + (daysBeforeMonth (y + 1) 0 : ℤ)
      else dayFromYear y + (daysBeforeMonth y (m + 1) : ℤ)) =
      dayFromYear y + (daysBeforeMonth y m : ℤ) + (daysInMonth y m : ℤ) := by
  split_ifs with h
  · subst h
    have h12 := daysBeforeMonth_twelve y
    rw [daysBeforeMonth_succ] at h12
    have : ((daysBeforeMonth y 11 + daysInMonth y 11 : ℕ) : ℤ) =
        if isLeapYear y then 366 else 365 := by
      rw [h12]; split_ifs <;> rfl
    rw [dayFromYear_succ, daysBeforeMonth_zero, ← this]
    push_cast
    ring
  · rw [daysBeforeMonth_succ]; push_cast; ring

theorem timeValue_eq (d : JsDate) : timeValue d = dayNumber d * msPerDay + d.ms := rfl

theorem dayNumber_mk (y : ℤ) (m d ms : ℕ) :
    dayNumber ⟨y, m, d, ms⟩ = dayFromYear y + daysBeforeMonth y m + ((d : ℤ) - 1) := rfl

/-- The window in day numbers: it starts on or before the day of the clock reading, ends
after it, and lasts as many days as its start month. -/
theorem window_days (now : JsDate) (hnow : now.IsClockReading) :
    dayNumber (billingFrom now) ≤ dayNumber now ∧
    dayNumber now + 1 ≤ dayNumber (billingEnd now) ∧
    dayNumber (billingEnd now) - dayNumber (billingFrom now) =
      (daysInMonth (billingFrom now).year (billingFrom now).month : ℤ) ∧
    (billingFrom now).ms = 0 ∧ (billingEnd now).ms = 0 := by
  obtain ⟨hy, hm, hd1, hd2, -⟩ := hnow
  obtain ⟨y, m, d, ms⟩ := now
  simp only at hy hm hd1 hd2
  have hend := billingEnd_eq ⟨y, m, d, ms⟩ hy hm
  have hd1' : (1 : ℤ) ≤ d := by exact_mod_cast hd1
  have hd2' : (d : ℤ) ≤ daysInMonth y m := by exact_mod_cast hd2
  rcases Nat.lt_or_ge d 20 with hd | hd
  · have hfrom := billingFrom_of_early ⟨y, m, d, ms⟩ hy hm hd
    simp only at hfrom
    have hd' : (d : ℤ) ≤ 19 := by exact_mod_cast Nat.le_of_lt_succ hd
    by_cases h0 : m = 0
    · subst h0
      rw [if_pos rfl] at hfrom
      rw [hfrom] at hend
      simp only [if_true, sub_add_cancel] at hend
      rw [hend, hfrom]
      have hA := firstOfNextMonth (y - 1) 11 (by norm_num)
      simp only [if_true, sub_add_cancel] at hA
      have hb : (28 : ℤ) ≤ daysInMonth (y - 1) 11 := by
        exact_mod_cast (daysInMonth_bounds (y - 1) 11).1
      simp only [dayNumber_mk]
      refine ⟨?_, ?_, ?_, trivial, trivial⟩ <;> push_cast <;> linarith
    · rw [if_neg h0] at hfrom
      rw [hfrom] at hend
      have hm1 : m - 1 + 1 = m := Nat.sub_add_cancel (Nat.pos_of_ne_zero h0)
      have hne : ¬ (m - 1 = 11) := by omega
      simp only [hne, if_false, hm1] at hend
      rw [hend, hfrom]
      have hA := firstOfNextMonth y (m - 1) (by omega)
      simp only [hne, if_false, hm1] at hA
      have hb : (28 : ℤ) ≤ daysInMonth y (m - 1) := by
        exact_mod_cast (daysInMonth_bounds y (m - 1)).1
      simp only [dayNumber_mk]
      refine ⟨?_, ?_, ?_, trivial, trivial⟩ <;> push_cast <;> linarith
  · have hfrom := billingFrom_of_late ⟨y, m, d, ms⟩ hy hm hd
    simp only at hfrom
    have hd' : (20 : ℤ) ≤ d := by exact_mod_cast hd
    rw [hfrom] at hend
    simp only at hend
    have hA := firstOfNextMonth y m hm
    by_cases h11 : m = 11
    · subst h11
      simp only [if_true] at hend hA
      rw [hend, hfrom]
      simp only [dayNumber_mk]
      refine ⟨?_, ?_, ?_, trivial, trivial⟩ <;> push_cast <;> linarith
    · simp only [h11, if_false] at hend hA
      rw [hend, hfrom]
      simp only [dayNumber_mk]
      refine ⟨?_, ?_, ?_, trivial, trivial⟩ <;> push_cast <;> linarith

/-- The value totalDays is the number of days of the start month. -/
theorem totalDays_eq (now : JsDate) (hnow : now.IsClockReading) :
    totalDays now = (daysInMonth (billingFrom now).year (billingFrom now).month : ℚ) := by
  obtain ⟨-, -, h3, hf0, he0⟩ := window_days now hnow
  have hP : msPerDay = 86400000 := rfl
  unfold totalDays
  have : timeValue (billingEnd now) - timeValue (billingFrom now) =
      (daysInMonth (billingFrom now).year (billingFrom now).month : ℤ) * 86400000 := by
    rw [timeValue_eq, timeValue_eq, he0, hf0, hP, ← h3]
    push_cast
    ring
  rw [this]
  push_cast
  field_simp

theorem totalDays_pos (now : JsDate) (hnow : now.IsClockReading) : 0 < totalDays now := by
  rw [totalDays_eq now hnow]
  have := (daysInMonth_bounds (billingFrom now).year (billingFrom now).month).1
  have h : (28 : ℚ) ≤ daysInMonth (billingFrom now).year (billingFrom now).month := by
    exact_mod_cast this
  linarith

theorem r_nonneg (dec : ℕ) {x : ℚ} (h : 0 ≤ x) : 0 ≤ r x dec := by
  have := r_mono dec h
  rwa [r_zero] at this

theorem foldl_creditOpt_total_nonneg (recs : List Json) (e : Option ServiceUsage)
    (hq : ∀ obj ∈ recs, 0 ≤ quantityOf obj) (he : ∀ e0, e = some e0 → 0 ≤ e0.total) :
    ∀ e1, recs.foldl creditOpt e = some e1 → 0 ≤ e1.total := by
  induction recs generalizing e with
  | nil => simpa using he
  | cons obj rest ih =>
    rw [List.foldl_cons]
    apply ih _ (fun o ho => hq o (List.mem_cons_of_mem _ ho))
    intro e0 h0
    have hobj := hq obj (List.mem_cons_self _ _)
    obtain rfl := Option.some.inj h0
    cases e with
    | none => simp [creditEntry]; exact hobj
    | some e2 =>
      have := he e2 rfl
      simp only [Option.getD_some, creditEntry]
      linarith

/-- The usage of a service is non-negative when the accepted quantities are. -/
theorem usedOf_nonneg (ok : Bool) (lines : List Line) (hq : NonNegativeQuantities lines)
    (svc : Svc) : 0 ≤ usedOf (fetchBilling ok lines) svc := by
  unfold usedOf
  cases h : fetchBilling ok lines svc with
  | none => exact le_refl _
  | some e =>
    cases ok with
    | false => simp [fetchBilling] at h
    | true =>
      simp only [fetchBilling, Bool.not_true, Bool.false_eq_true, if_false, finalRound_apply] at h
      cases h0 : foldLines lines svc with
      | none => rw [h0] at h; simp at h
      | some e0 =>
        rw [h0] at h
        obtain rfl := Option.some.inj h
        rw [foldLines_apply] at h0
        have := foldl_creditOpt_total_nonneg (recordsOf lines svc) none
          (fun obj hobj => by
            obtain ⟨line, hl, hacc⟩ := mem_recordsOf.mp hobj
            exact hq line hl svc obj hacc)
          (fun e0 h => Option.noConfusion h) e0 h0
        exact r_nonneg 3 this

theorem project_projPct_nonneg (billing : BillingResult) (svc : Svc) (elapsed total : ℚ)
    (hu : 0 ≤ usedOf billing svc) (he : 0 ≤ elapsed) (ht : 0 ≤ total) :
    0 ≤ (project billing elapsed total svc).projPct := by
  simp only [project]
  apply r_nonneg
  apply mul_nonneg _ (by norm_num)
  apply div_nonneg _ (LIMITS_pos svc).le
  apply r_nonneg
  exact mul_nonneg (div_nonneg hu he) ht

theorem creditLine_projPct :
    (proj ⟨2026, 0, 20, 0⟩ (fetchBilling true [creditLine]) .buildMinutes).projPct = -1 / 2 := by
  have hnow : (⟨2026, 0, 20, 0⟩ : JsDate).IsClockReading := by decide
  have hfrom : billingFrom ⟨2026, 0, 20, 0⟩ = ⟨2026, 0, 20, 0⟩ := by decide
  have htotal : totalDays ⟨2026, 0, 20, 0⟩ = 31 := by
    rw [totalDays_eq _ hnow, hfrom]
    norm_num [daysInMonth]
  have helapsed : daysElapsed ⟨2026, 0, 20, 0⟩ = 1 := by
    simp [daysElapsed, hfrom]
  simp only [proj, project, htotal, helapsed, creditLine_used]
  norm_num [LIMITS, r, mathRound]

/-- C12 (as stated) fails: with a feed holding one credit of a build minute, on 20 January
2026 at 00:00 (one day counted as elapsed, a window of 31 days), the projected percentage
of Build Minutes is -0.5. -/
theorem C12_counterexample_negative_percentage :
    (⟨2026, 0, 20, 0⟩ : JsDate).IsClockReading ∧
    (proj ⟨2026, 0, 20, 0⟩ (fetchBilling true [creditLine]) .buildMinutes).projPct = -1 / 2 ∧
    ¬ (0 ≤ (proj ⟨2026, 0, 20, 0⟩ (fetchBilling true [creditLine]) .buildMinutes).projPct) := by
  refine ⟨by decide, creditLine_projPct, ?_⟩
  rw [creditLine_projPct]
  norm_num

/-- C12 (amended): for every feed whose accepted quantities are all non-negative and every
clock instant, the projected percentage of each of the four services is ≥ 0; it is not
clamped above (a usage of 12000 build minutes over a one-day window gives 200), and the
risk tier is computed from that unclamped value. -/
theorem C12_projPct_nonneg (ok : Bool) (lines : List Line) (now : JsDate) (svc : Svc)
    (hnow : now.IsClockReading) (hq : NonNegativeQuantities lines) :
    0 ≤ (proj now (fetchBilling ok lines) svc).projPct ∧
    (proj now (fetchBilling ok lines) svc).risk =
      riskOf (proj now (fetchBilling ok lines) svc).projPct ∧
    (project (flatBilling 12000) 1 1 .buildMinutes).projPct = 200 ∧
    (project (flatBilling 12000) 1 1 .buildMinutes).risk = .danger := by
  refine ⟨?_, rfl, ?_, ?_⟩
  · exact project_projPct_nonneg _ svc _ _ (usedOf_nonneg ok lines hq svc)
      (le_trans (by norm_num) (one_le_daysElapsed now)) (totalDays_pos now hnow).le
  · norm_num [project, flatBilling, usedOf, LIMITS, r, mathRound]
  · norm_num [project, flatBilling, usedOf, LIMITS, r, mathRound, riskOf]

theorem sampleFeed_nonneg : NonNegativeQuantities sampleFeed := by
  intro line hline svc obj hobj
  simp only [sampleFeed, List.mem_cons, List.mem_singleton, List.mem_nil_iff, or_false] at hline
  rcases hline with rfl | rfl
  · have h1 : acceptedRecord (usageLine .buildMinutes "10" 10 "pole") =
      some (.buildMinutes, _) := rfl
    rw [h1] at hobj
    obtain rfl := (Prod.mk.inj (Option.some.inj hobj)).2
    rw [quantityOf_record]
    norm_num
  · have h1 : acceptedRecord (usageLine .buildMinutes "5" 5 "pitch") =
      some (.buildMinutes, _) := rfl
    rw [h1] at hobj
    obtain rfl := (Prod.mk.inj (Option.some.inj hobj)).2
    rw [quantityOf_record]
    norm_num

/-- Witness of C12 (amended): the end-to-end feed on 5 January 2026 at 08:00. -/
theorem C12_projPct_nonneg_witness :
    (⟨2026, 0, 5, 28800000⟩ : JsDate).IsClockReading ∧ NonNegativeQuantities sampleFeed ∧
    0 ≤ (proj ⟨2026, 0, 5, 28800000⟩ (fetchBilling true sampleFeed) .buildMinutes).projPct :=
  ⟨by decide, sampleFeed_nonneg,
    (C12_projPct_nonneg true sampleFeed ⟨2026, 0, 5, 28800000⟩ .buildMinutes (by decide)
      sampleFeed_nonneg).1⟩

/-! ## C19: total against perApp before the final rounding -/

/-- C19 at two failing inputs.  A record of 3 build minutes for a consumer named
`__proto__` leaves the entry with total 3 and no perApp bucket at all (the sum of the
perApp values is 0); the same record for a consumer named `constructor` leaves total 3 and
one bucket that holds a text, so that the sum of the perApp values is not a number. -/
theorem C19_inherited_consumer_names :
    (foldLines protoFeed .buildMinutes).map
        (fun e => (e.total, e.perApp.length, sumValues e.perApp)) = some (3, 0, some 0) ∧
    (foldLines constructorFeed .buildMinutes).map
        (fun e => (e.total, e.perApp, sumValues e.perApp)) =
      some (3, [("constructor", none)], none) := by
  have h1 : acceptedRecord (usageLine .buildMinutes "3" 3 "__proto__") =
    some (.buildMinutes, _) := rfl
  have h2 : acceptedRecord (usageLine .buildMinutes "3" 3 "constructor") =
    some (.buildMinutes, _) := rfl
  constructor
  · simp only [protoFeed, foldLines, List.foldl_cons, List.foldl_nil, lineStep_eq, h1]
    simp [credit_same, creditEntry, quantityOf_record, appNameOf_record, addToApp, assignSlot,
      Svc.name, sumValues]
  · simp only [constructorFeed, foldLines, List.foldl_cons, List.foldl_nil, lineStep_eq, h2]
    simp [credit_same, creditEntry, quantityOf_record, appNameOf_record, addToApp, assignSlot,
      readSlot, slotOf, ownProp, isInheritedKey, objectPrototypeMethods, slotPlus, putOwn,
      Svc.name, sumValues]

/-! ## C15: the effect of one accepted record -/

/-- A request or a decoding that fails leaves both totals at zero, and the report is the
fully-zeroed report. -/
theorem fetchOpenAI_of_no_body (costs usage : Fetched)
    (h : (∀ c, costs ≠ .body c) ∨ (∀ u, usage ≠ .body u)) (sinceMs : ℤ) :
    openAIFailed costs usage = true ∧ fetchOpenAI costs usage sinceMs = ⟨0, 0, 0, 0⟩ := by
  have ht : openAITotals costs usage = (0, 0, some .typeError) ∨
      openAITotals costs usage = (0, 0, some .parseFailure) := by
    cases costs <;> cases usage <;> simp [openAITotals] at h ⊢
  have hz : openAIReport 0 0 sinceMs = ⟨0, 0, 0, 0⟩ := by
    simp [openAIReport, r_zero]
  rcases ht with ht | ht <;> simp [openAIFailed, fetchOpenAI, ht, hz]

theorem brokenUsage_totals :
    openAITotals (.body costsPage) (.body brokenUsagePage) = (5, 0, some .typeError) := by
  simp [openAITotals, overData, costsPage, brokenUsagePage, forOfValue, getProp, lookupField,
    iterate, forOf, overResults, addCost, optChain, parseFloat]

/-- C14 at a failing input: the page of costs holds one entry of 5 and is summed; the page
of usage has an object where the list of buckets is expected, so that the loop over it
throws.  The exception is caught, a step has failed, and ten days after the start date the
report is totalCost 5, requests 0, costPerPrompt 0, monthlyProjected 15, not the
fully-zeroed report. -/
theorem C14_partial_sums_survive_failure :
    openAIFailed (.body costsPage) (.body brokenUsagePage) = true ∧
    fetchOpenAI (.body costsPage) (.body brokenUsagePage) 864000000 = ⟨5, 0, 0, 15⟩ ∧
    fetchOpenAI (.body costsPage) (.body brokenUsagePage) 864000000 ≠ ⟨0, 0, 0, 0⟩ := by
  have h : fetchOpenAI (.body costsPage) (.body brokenUsagePage) 864000000 = ⟨5, 0, 0, 15⟩ := by
    simp [fetchOpenAI, brokenUsage_totals, openAIReport]
    norm_num [r, mathRound]
  refine ⟨by simp [openAIFailed, brokenUsage_totals], h, ?_⟩
  rw [h]
  simp

/-! ## C16: missing credentials -/

/-- C16: when VERCEL_TOKEN or VERCEL_TEAM_ID is missing (undefined or empty) the handler
responds with status 500 and the body error = the fixed message, a non-empty text, and
invokes none of fetchBilling, fetchDeploys, fetchOpenAI; when both are present it does not
take this branch: the three operations are invoked. -/
theorem C16_missing_credentials (env : Env) (now : JsDate) (isoNow : String) (up : Upstreams) :
    ((isMissing env.VERCEL_TOKEN = true ∨ isMissing env.VERCEL_TEAM_ID = true) →
      handler env now isoNow up = (⟨500, .error missingEnvMessage⟩, [])) ∧
    missingEnvMessage ≠ "" ∧
    ((isMissing env.VERCEL_TOKEN = false ∧ isMissing env.VERCEL_TEAM_ID = false) →
      (handler env now isoNow up).2 = [.fetchBilling, .fetchDeploys, .fetchOpenAI]) ∧
    (isMissing none = true ∧ isMissing (some "") = true ∧
      ∀ s : String, s ≠ "" → isMissing (some s) = false) := by
  refine ⟨?_, by decide, ?_, rfl, rfl, ?_⟩
  · intro h
    have : (isMissing env.VERCEL_TOKEN || isMissing env.VERCEL_TEAM_ID) = true := by
      rcases h with h | h <;> simp [h]
    simp [handler, this]
  · rintro ⟨h1, h2⟩
    unfold handler
    rw [h1, h2]
    simp only [Bool.or_self, Bool.false_eq_true, if_false]
    cases up.billing with
    | error message => rfl
    | ok v => rfl
  · intro s hs
    simp [isMissing, hs]

end Rubix
